import Mathlib

/-!
# gopong: ball / paddle physics of `main.go`

A shallow embedding of the physics and collision core of the Pong clone
(`Ball.Update`, `resolveCollisions`, `handleCollision`, `minAbs`, `abs`,
`maxClamp`, `Paddle.Update`, `Game.Update`, `Game.Layout` and the entities
constructed in `main`), followed by theorems about it.

Modelling conventions

* `float32` values are rationals (`ℚ`); there is no infinity and no NaN.  The
  literals of the source (`0.05`, `5.5`, `2.5`) denote the corresponding
  rationals.  The first embedding takes every float32 operation as the exact
  one.  Where a property depends on rounding, the collision functions are
  embedded a second time in the namespace `Rounded`, every operation followed by
  `round32`, the rounding of IEEE 754 binary32 (round to nearest, ties to even).
* `int` is modelled by `ℤ`; the conversion `int(f)` of a float truncates
  toward zero, `float32(n)` is the cast `ℤ → ℚ`.
* Pointers become explicit state passing: `Ball.Update` runs on a `Game`
  (the ball reaches both paddles through its `g` pointer) and returns the new
  `Game`; `resolveCollisions` returns the ball and the paddle it was given.
* `image.Point`, `image.Rectangle`, `image.Rect`, `Rectangle.Empty` and
  `Rectangle.Overlaps` follow Go's standard `image` package.
* The key state `ebiten.IsKeyPressed` is an input of `Paddle.Update`.
* Rendering (`Draw`, the vertex and index buffers) is not modelled.
-/

namespace Gopong

/-- The type standing for Go's `float32`: exact rational arithmetic. -/
abbrev Float32 := ℚ

/-- Go's conversion `int(f)` of a float: truncation toward zero. -/
def toInt (v : Float32) : ℤ :=
  if 0 ≤ v then ⌊v⌋ else ⌈v⌉

/-! ## Go's `image` package -/

namespace image

/-- An `image.Point`: an integer coordinate pair. -/
structure Point where
  X : ℤ
  Y : ℤ
  deriving DecidableEq, Repr

/-- An `image.Rectangle`: the points with `Min.X ≤ x < Max.X`, `Min.Y ≤ y < Max.Y`. -/
structure Rectangle where
  Min : Point
  Max : Point
  deriving DecidableEq, Repr

/-- Go's `image.Rect(x0, y0, x1, y1)`: the coordinates are swapped where needed so
that the rectangle is well formed. -/
def Rect (x0 y0 x1 y1 : ℤ) : Rectangle :=
  { Min := { X := if x0 > x1 then x1 else x0, Y := if y0 > y1 then y1 else y0 },
    Max := { X := if x0 > x1 then x0 else x1, Y := if y0 > y1 then y0 else y1 } }

/-- Go's `Rectangle.Empty`: the rectangle contains no point. -/
def Rectangle.Empty (r : Rectangle) : Bool :=
  decide (r.Min.X ≥ r.Max.X) || decide (r.Min.Y ≥ r.Max.Y)

/-- Go's `Rectangle.Overlaps`: both rectangles are non-empty and intersect. -/
def Rectangle.Overlaps (r s : Rectangle) : Bool :=
  !r.Empty && !s.Empty &&
    decide (r.Min.X < s.Max.X) && decide (s.Min.X < r.Max.X) &&
    decide (r.Min.Y < s.Max.Y) && decide (s.Min.Y < r.Max.Y)

end image

/-! ## Constants -/

/-- The constant `screenWidth`. -/
def screenWidth : ℤ := 640

/-- The constant `screenHeight`. -/
def screenHeight : ℤ := 480

/-- The constant `maxVelocity`. -/
def maxVelocity : Float32 := 5.5

/-! ## Entities -/

/-- The keys of `ebiten.Key` the program binds, and every other key by its code. -/
inductive Key where
  | KeyS
  | KeyD
  | KeyArrowLeft
  | KeyArrowRight
  | other (code : ℕ)
  deriving DecidableEq, Repr

/-- The struct `Ball` (without its back pointer `g`). -/
structure Ball where
  x : Float32
  y : Float32
  size : Float32
  velX : Float32
  velY : Float32
  rect : image.Rectangle
  justCollided : Bool
  deriving DecidableEq

/-- The struct `Paddle` (without its back pointer `g`). -/
structure Paddle where
  x : Float32
  y : Float32
  width : Float32
  height : Float32
  velocity : Float32
  rect : image.Rectangle
  keyLeft : Key
  keyRight : Key
  deriving DecidableEq

/-- The struct `Game`: the two paddles and the ball (the render buffers are left out). -/
structure Game where
  player1 : Paddle
  player2 : Paddle
  ball : Ball
  deriving DecidableEq

/-! ## Scalar helpers -/

/-- The function `abs` of `main.go`. -/
def abs (value : Float32) : Float32 :=
  if value < 0 then -value else value

/-- The function `minAbs` of `main.go`. -/
def minAbs (a b : Float32) : Float32 :=
  if abs a < abs b then a else b

/-- The function `maxClamp` of `main.go`. -/
def maxClamp (value max : Float32) : Float32 :=
  if value ≥ max then max
  else if value ≤ -max then -max
  else value

/-! ## Collision resolution -/

/-- The function `handleCollision` of `main.go`: the new position and velocity on one axis. -/
def handleCollision (ballPos ballSize ballVel paddleMin paddleMax : Float32) :
    Float32 × Float32 :=
  if ballPos + ballSize > paddleMin ∧ ballPos < paddleMin then
    (paddleMin - ballSize - 1, -ballVel)
  else if ballPos < paddleMax ∧ ballPos + ballSize > paddleMax then
    (paddleMax + 1, -ballVel)
  else
    (ballPos, ballVel)

/-- The local `isXOverlap` of `resolveCollisions`; its second test reads the ball's own
rectangle. -/
def isXOverlap (b : Ball) (p : Paddle) : Bool :=
  decide (b.x + b.size > (p.rect.Min.X : Float32)) && decide (b.x < (b.rect.Max.X : Float32))

/-- The local `isYOverlap` of `resolveCollisions`. -/
def isYOverlap (b : Ball) (p : Paddle) : Bool :=
  decide (b.y + b.size > (p.rect.Min.Y : Float32)) && decide (b.y < (b.rect.Max.Y : Float32))

/-- The local `xDepth` of `resolveCollisions`. -/
def xDepth (b : Ball) (p : Paddle) : Float32 :=
  minAbs ((p.rect.Min.X : Float32) - (b.x + b.size)) ((p.rect.Max.X : Float32) - b.x)

/-- The local `yDepth` of `resolveCollisions`. -/
def yDepth (b : Ball) (p : Paddle) : Float32 :=
  minAbs ((p.rect.Min.Y : Float32) - (b.y + b.size)) ((p.rect.Max.Y : Float32) - b.y)

/-- The function `resolveCollisions` of `main.go`.  It receives two pointers; the pair
returned is the ball and the paddle as they are when the call ends. -/
def resolveCollisions (b : Ball) (p : Paddle) : Ball × Paddle :=
  if isXOverlap b p && isYOverlap b p then
    if abs (xDepth b p) < abs (yDepth b p) then
      let r := handleCollision b.x b.size b.velX p.rect.Min.X p.rect.Max.X
      ({ b with x := r.1, velX := r.2 }, p)
    else
      let r := handleCollision b.y b.size b.velY p.rect.Min.Y p.rect.Max.Y
      ({ b with y := r.1, velY := r.2 }, p)
  else if isXOverlap b p then
    let r := handleCollision b.x b.size b.velX p.rect.Min.X p.rect.Max.X
    ({ b with x := r.1, velX := r.2 }, p)
  else if isYOverlap b p then
    let r := handleCollision b.y b.size b.velY p.rect.Min.Y p.rect.Max.Y
    ({ b with y := r.1, velY := r.2 }, p)
  else
    (b, p)

/-! ## Per-tick updates -/

/-- The method `Ball.Update` of `main.go`, run on the game that owns the ball. -/
def Ball.Update (g : Game) : Game :=
  let g := { g with ball := { g.ball with x := g.ball.x + g.ball.velX } }
  let g := { g with ball := { g.ball with y := g.ball.y + g.ball.velY } }
  let g := { g with ball := { g.ball with
    rect := image.Rect (toInt g.ball.x) (toInt g.ball.y)
      (toInt (g.ball.x + g.ball.size)) (toInt (g.ball.y + g.ball.size)) } }
  let g :=
    if g.ball.rect.Min.X ≤ 0 ∨ g.ball.rect.Max.X ≥ screenWidth then
      { g with ball := { g.ball with velX := -g.ball.velX } }
    else g
  let g :=
    if g.ball.rect.Min.Y ≤ 0 ∨ g.ball.rect.Max.Y ≥ screenHeight then
      { g with ball := { g.ball with velY := -g.ball.velY } }
    else g
  let collided := false
  let s : Game × Bool :=
    if g.ball.rect.Overlaps g.player1.rect then
      let r := resolveCollisions g.ball g.player1
      ({ g with ball := r.1, player1 := r.2 }, true)
    else (g, collided)
  let s : Game × Bool :=
    if s.1.ball.rect.Overlaps s.1.player2.rect then
      let r := resolveCollisions s.1.ball s.1.player2
      ({ s.1 with ball := r.1, player2 := r.2 }, true)
    else s
  if s.2 then
    { s.1 with ball := { s.1.ball with
        velX := maxClamp (s.1.ball.velX + s.1.ball.velX * 0.05) maxVelocity,
        velY := maxClamp (s.1.ball.velY + s.1.ball.velY * 0.05) maxVelocity } }
  else s.1

/-- The method `Paddle.Update` of `main.go`; `IsKeyPressed` is the key state of the tick. -/
def Paddle.Update (p : Paddle) (IsKeyPressed : Key → Bool) : Paddle :=
  let p :=
    if IsKeyPressed p.keyLeft then
      let p := { p with x := p.x - p.velocity }
      if p.x < 0 then { p with x := 0 } else p
    else p
  let p :=
    if IsKeyPressed p.keyRight then
      let p := { p with x := p.x + p.velocity }
      if p.x > (screenWidth : Float32) - p.width then
        { p with x := (screenWidth : Float32) - p.width }
      else p
    else p
  { p with
    rect := image.Rect (toInt p.x) (toInt p.y) (toInt (p.x + p.width))
      (toInt (p.y + p.height)) }

/-- The method `Game.Update` of `main.go`: both paddles, then the ball. -/
def Game.Update (g : Game) (IsKeyPressed : Key → Bool) : Game :=
  let g := { g with player1 := g.player1.Update IsKeyPressed }
  let g := { g with player2 := g.player2.Update IsKeyPressed }
  Ball.Update g

/-- The method `Game.Layout` of `main.go`. -/
def Game.Layout (_g : Game) (_outsideWidth _outsideHeight : ℤ) : ℤ × ℤ :=
  (screenWidth, screenHeight)

/-- The zero value of `image.Rectangle`, the `rect` of an entity before its first update. -/
def zeroRect : image.Rectangle :=
  { Min := { X := 0, Y := 0 }, Max := { X := 0, Y := 0 } }

/-- The paddle `game.player1` constructed in `main`. -/
def mainPlayer1 : Paddle :=
  { x := (((screenWidth - 100) / 2 : ℤ) : Float32),
    y := ((screenHeight - 40 : ℤ) : Float32),
    width := 100, height := 8, velocity := 10, rect := zeroRect,
    keyLeft := Key.KeyS, keyRight := Key.KeyD }

/-- The paddle `game.player2` constructed in `main`. -/
def mainPlayer2 : Paddle :=
  { x := (((screenWidth - 100) / 2 : ℤ) : Float32),
    y := 40,
    width := 100, height := 8, velocity := 10, rect := zeroRect,
    keyLeft := Key.KeyArrowLeft, keyRight := Key.KeyArrowRight }

/-- The ball `game.ball` constructed in `main`. -/
def mainBall : Ball :=
  { size := 20,
    x := ((screenHeight / 2 : ℤ) : Float32),
    y := ((screenWidth / 2 : ℤ) : Float32),
    velY := 2.5, velX := 2.5, rect := zeroRect, justCollided := false }

/-- The game constructed in `main`. -/
def mainGame : Game :=
  { player1 := mainPlayer1, player2 := mainPlayer2, ball := mainBall }

/-- The game after a sequence of ticks, one key state per tick. -/
def Game.run (g : Game) : List (Key → Bool) → Game
  | [] => g
  | keys :: rest => (g.Update keys).run rest

/-! ## The stages of `Ball.Update`, named as the specification names them -/

/-- Integration: the velocity is added to the position and the rectangle is recomputed
from the new position by truncation. -/
def Ball.integrate (b : Ball) : Ball :=
  { b with
    x := b.x + b.velX,
    y := b.y + b.velY,
    rect := image.Rect (toInt (b.x + b.velX)) (toInt (b.y + b.velY))
      (toInt (b.x + b.velX + b.size)) (toInt (b.y + b.velY + b.size)) }

/-- Edge bounce: a velocity component is negated when the rectangle reaches the screen
edge on that axis; the position is not touched. -/
def Ball.edgeBounce (b : Ball) : Ball :=
  { b with
    velX := if b.rect.Min.X ≤ 0 ∨ b.rect.Max.X ≥ screenWidth then -b.velX else b.velX,
    velY := if b.rect.Min.Y ≤ 0 ∨ b.rect.Max.Y ≥ screenHeight then -b.velY else b.velY }

/-- The 5% boost with clamp, on both velocity components. -/
def Ball.boost (b : Ball) : Ball :=
  { b with
    velX := maxClamp (b.velX + b.velX * 0.05) maxVelocity,
    velY := maxClamp (b.velY + b.velY * 0.05) maxVelocity }

/-- The ball's rectangle overlaps the rectangle of at least one paddle in this tick. -/
def Ball.hitsPaddle (g : Game) : Bool :=
  g.ball.integrate.rect.Overlaps g.player1.rect ||
    g.ball.integrate.rect.Overlaps g.player2.rect

/-- The ball after integration, edge bounce and paddle resolution, before the boost. -/
def Ball.resolved (g : Game) : Ball :=
  let b0 := g.ball.integrate.edgeBounce
  let b1 := if g.ball.integrate.rect.Overlaps g.player1.rect then
    (resolveCollisions b0 g.player1).1 else b0
  if g.ball.integrate.rect.Overlaps g.player2.rect then
    (resolveCollisions b1 g.player2).1 else b1

/-! ## The collision functions with float32 rounding

In this section every float32 operation of `resolveCollisions` and `handleCollision` is
followed by the rounding of IEEE 754 binary32 (round to nearest, ties to even), and the
conversion `float32(n)` of an integer rounds too.  Comparisons and negation are exact in
float32 and are left as they are.  Overflow to infinity is not modelled: the statements
about these functions are at magnitudes far below `2^127`. -/

/-- Rounding of a rational to the nearest integer, a tie going to the even one. -/
def roundHalfEven (q : ℚ) : ℤ :=
  if q - ⌊q⌋ < 1 / 2 then ⌊q⌋
  else if q - ⌊q⌋ > 1 / 2 then ⌊q⌋ + 1
  else if ⌊q⌋ % 2 = 0 then ⌊q⌋ else ⌊q⌋ + 1

/-- The exponent of the unit in the last place of binary32 at the magnitude of `q`: 24
significant bits in the normal range, `2^-149` below it. -/
def ulpExponent (q : ℚ) : ℤ :=
  max (Int.log 2 |q|) (-126) - 23

/-- The binary32 value nearest to `q`, ties to even. -/
def round32 (q : ℚ) : Float32 :=
  roundHalfEven (q / 2 ^ ulpExponent q) * 2 ^ ulpExponent q

namespace Rounded

/-- Go's conversion `float32(n)` of an `int`. -/
def float32 (n : ℤ) : Float32 :=
  round32 n

/-- The function `handleCollision` of `main.go` with float32 rounding. -/
def handleCollision (ballPos ballSize ballVel paddleMin paddleMax : Float32) :
    Float32 × Float32 :=
  if round32 (ballPos + ballSize) > paddleMin ∧ ballPos < paddleMin then
    (round32 (round32 (paddleMin - ballSize) - 1), -ballVel)
  else if ballPos < paddleMax ∧ round32 (ballPos + ballSize) > paddleMax then
    (round32 (paddleMax + 1), -ballVel)
  else
    (ballPos, ballVel)

/-- The local `isXOverlap` of `resolveCollisions` with float32 rounding. -/
def isXOverlap (b : Ball) (p : Paddle) : Bool :=
  decide (round32 (b.x + b.size) > float32 p.rect.Min.X) && decide (b.x < float32 b.rect.Max.X)

/-- The local `isYOverlap` of `resolveCollisions` with float32 rounding. -/
def isYOverlap (b : Ball) (p : Paddle) : Bool :=
  decide (round32 (b.y + b.size) > float32 p.rect.Min.Y) && decide (b.y < float32 b.rect.Max.Y)

/-- The local `xDepth` of `resolveCollisions` with float32 rounding. -/
def xDepth (b : Ball) (p : Paddle) : Float32 :=
  minAbs (round32 (float32 p.rect.Min.X - round32 (b.x + b.size)))
    (round32 (float32 p.rect.Max.X - b.x))

/-- The local `yDepth` of `resolveCollisions` with float32 rounding. -/
def yDepth (b : Ball) (p : Paddle) : Float32 :=
  minAbs (round32 (float32 p.rect.Min.Y - round32 (b.y + b.size)))
    (round32 (float32 p.rect.Max.Y - b.y))

/-- The function `resolveCollisions` of `main.go` with float32 rounding. -/
def resolveCollisions (b : Ball) (p : Paddle) : Ball × Paddle :=
  if isXOverlap b p && isYOverlap b p then
    if abs (xDepth b p) < abs (yDepth b p) then
      let r := handleCollision b.x b.size b.velX (float32 p.rect.Min.X) (float32 p.rect.Max.X)
      ({ b with x := r.1, velX := r.2 }, p)
    else
      let r := handleCollision b.y b.size b.velY (float32 p.rect.Min.Y) (float32 p.rect.Max.Y)
      ({ b with y := r.1, velY := r.2 }, p)
  else if isXOverlap b p then
    let r := handleCollision b.x b.size b.velX (float32 p.rect.Min.X) (float32 p.rect.Max.X)
    ({ b with x := r.1, velX := r.2 }, p)
  else if isYOverlap b p then
    let r := handleCollision b.y b.size b.velY (float32 p.rect.Min.Y) (float32 p.rect.Max.Y)
    ({ b with y := r.1, velY := r.2 }, p)
  else
    (b, p)

/-- The rectangle `Ball.Update` computes from the ball's current position, the sums
rounded to float32 before truncation. -/
def ballRect (b : Ball) : image.Rectangle :=
  image.Rect (toInt b.x) (toInt b.y) (toInt (round32 (b.x + b.size)))
    (toInt (round32 (b.y + b.size)))

/-- Every coordinate of the rectangle has magnitude at most `bound`. -/
def rectWithin (r : image.Rectangle) (bound : ℤ) : Prop :=
  |r.Min.X| ≤ bound ∧ |r.Min.Y| ≤ bound ∧ |r.Max.X| ≤ bound ∧ |r.Max.Y| ≤ bound

end Rounded

/-! ## Concrete states used in the theorems below -/

/-- A paddle whose rectangle is `(100,100)-(200,108)`. -/
def cornerPaddle : Paddle :=
  { x := 100, y := 100, width := 100, height := 8, velocity := 10,
    rect := image.Rect 100 100 200 108,
    keyLeft := Key.KeyS, keyRight := Key.KeyD }

/-- A game whose ball arrives at `(90, 90)` after integration and then overlaps the
rectangle of `player1`; `player2` is the paddle of `main` before its first update. -/
def cornerGame : Game :=
  { player1 := cornerPaddle, player2 := mainPlayer2,
    ball := { x := 87.5, y := 87.5, size := 20, velX := 2.5, velY := 2.5,
              rect := zeroRect, justCollided := false } }

/-- A ball of size 20 at `(90, 90)`: it enters the top-left corner of `cornerPaddle`
by 10 on both axes. -/
def tieBall : Ball :=
  { x := 90, y := 90, size := 20, velX := 2.5, velY := 2.5,
    rect := image.Rect 90 90 110 110, justCollided := false }

/-- A ball far from `cornerPaddle`, above and to the left of it. -/
def farBall : Ball :=
  { x := 10, y := 20, size := 20, velX := 2.5, velY := -1.5,
    rect := image.Rect 10 20 30 40, justCollided := false }

/-- The paddle `player1` of `main` after its first update with no key held; its rectangle
is `(270,440)-(370,448)`. -/
def restingPlayer1 : Paddle :=
  { mainPlayer1 with rect := image.Rect 270 440 370 448 }

/-- The paddle `player2` of `main` after its first update with no key held; its rectangle
is `(270,40)-(370,48)`. -/
def restingPlayer2 : Paddle :=
  { mainPlayer2 with rect := image.Rect 270 40 370 48 }

/-- A game whose ball sits on the left wall at `x = 0`, moving left, away from both
paddles. -/
def leftWallGame : Game :=
  { player1 := restingPlayer1, player2 := restingPlayer2,
    ball := { x := 0, y := 200, size := 20, velX := -2.5, velY := 0,
              rect := image.Rect 0 200 20 220, justCollided := false } }

/-- A game whose ball reaches the bottom wall in this tick, away from both paddles. -/
def bottomWallGame : Game :=
  { player1 := restingPlayer1, player2 := restingPlayer2,
    ball := { x := 100, y := 458, size := 20, velX := 0, velY := 2.5,
              rect := image.Rect 100 458 120 478, justCollided := false } }

/-- A game whose two paddles overlap each other and the ball after integration. -/
def doubleHitGame : Game :=
  { player1 := cornerPaddle,
    player2 := { cornerPaddle with x := 95, y := 104, rect := image.Rect 95 104 195 112 },
    ball := { x := 87.5, y := 87.5, size := 20, velX := 2.5, velY := 2.5,
              rect := zeroRect, justCollided := false } }

/-- The reference symmetric clamp of the specification: `max(-bound, min(value, bound))`. -/
def clampSymmetric (value bound : Float32) : Float32 :=
  Max.max (-bound) (Min.min value bound)

/-- The reference for the new `x` of a paddle, as the specification words it: if left is
pressed `x` becomes `max(x - velocity, 0)`, then if right is pressed it becomes
`min(x + velocity, 640 - width)`. -/
def paddleStep (x velocity width : Float32) (left right : Bool) : Float32 :=
  let x1 := if left then Max.max (x - velocity) 0 else x
  if right then Min.min (x1 + velocity) (640 - width) else x1

/-- The game of `main` with the ball put on the left wall: `x = 0`, `y = 200`,
`velX = -2.5`, `velY = 0`, `size = 20`. -/
def trapGame : Game :=
  { player1 := mainPlayer1, player2 := mainPlayer2,
    ball := { x := 0, y := 200, size := 20, velX := -2.5, velY := 0,
              rect := image.Rect 0 200 20 220, justCollided := false } }

/-- The state of `trapGame` after one `Ball.Update`: the ball at `x = -2.5` moving right. -/
def trapGameMid : Game :=
  { player1 := mainPlayer1, player2 := mainPlayer2,
    ball := { x := -2.5, y := 200, size := 20, velX := 2.5, velY := 0,
              rect := image.Rect (-2) 200 17 220, justCollided := false } }

/-- The states of the trap: the paddles on their rows (`y = 440` and `y = 40`, height 8),
the ball of size 20 on the row `y = 200` with no vertical velocity, and either on the wall
moving left or at `x = -2.5` moving right. -/
def trapInvariant (g : Game) : Prop :=
  g.player1.y = 440 ∧ g.player1.height = 8 ∧ g.player2.y = 40 ∧ g.player2.height = 8 ∧
  g.ball.y = 200 ∧ g.ball.velY = 0 ∧ g.ball.size = 20 ∧
  ((g.ball.x = 0 ∧ g.ball.velX = -2.5) ∨ (g.ball.x = -2.5 ∧ g.ball.velX = 2.5))

/-- A paddle far to the right whose rectangle starts at `16777219`, an integer that is not
a float32 value. -/
def widePaddle : Paddle :=
  { x := 16777220, y := 100, width := 100, height := 8, velocity := 10,
    rect := image.Rect 16777219 100 16777319 108,
    keyLeft := Key.KeyS, keyRight := Key.KeyD }

/-- A ball of size 20 at `(16777200, 95)` with the rectangle computed from its position; it
reaches one pixel into `widePaddle`. -/
def wideBall : Ball :=
  { x := 16777200, y := 95, size := 20, velX := 2.5, velY := 2.5,
    rect := image.Rect 16777200 95 16777220 115, justCollided := false }

/-- The paddle handed to `resolveCollisions` comes back as it was. -/
theorem resolveCollisions_snd (b : Ball) (p : Paddle) : (resolveCollisions b p).2 = p := by
  unfold resolveCollisions
  split_ifs <;> rfl

/-- The fields `size`, `rect` and `justCollided` of the ball are not written by
`resolveCollisions`. -/
theorem resolveCollisions_frame (b : Ball) (p : Paddle) :
    (resolveCollisions b p).1.size = b.size ∧ (resolveCollisions b p).1.rect = b.rect ∧
      (resolveCollisions b p).1.justCollided = b.justCollided := by
  unfold resolveCollisions
  split_ifs <;> exact ⟨rfl, rfl, rfl⟩

/-- The method `Ball.Update` is the composition of its stages: the paddles are returned as
they were, and the ball is the resolved ball, boosted when a paddle was hit. -/
theorem Ball.Update_eq (g : Game) :
    Ball.Update g =
      { g with ball := if Ball.hitsPaddle g then (Ball.resolved g).boost else Ball.resolved g } := by
  have hrect : ∀ (b : Ball) (p : Paddle), (resolveCollisions b p).1.rect = b.rect :=
    fun b p => (resolveCollisions_frame b p).2.1
  rcases g with ⟨p1, p2, b⟩
  simp only [Ball.Update, Ball.hitsPaddle, Ball.resolved, Ball.integrate, Ball.edgeBounce,
    Ball.boost]
  generalize image.Rect (toInt (b.x + b.velX)) (toInt (b.y + b.velY))
      (toInt (b.x + b.velX + b.size)) (toInt (b.y + b.velY + b.size)) = R
  by_cases hx : R.Min.X ≤ 0 ∨ R.Max.X ≥ screenWidth <;>
  by_cases hy : R.Min.Y ≤ 0 ∨ R.Max.Y ≥ screenHeight <;>
  by_cases h1 : R.Overlaps p1.rect = true <;>
  by_cases h2 : R.Overlaps p2.rect = true <;>
  simp [hx, hy, h1, h2, hrect, resolveCollisions_snd]

/-- C1 (as stated, refuted): `tieBall` overlaps `cornerPaddle` on both axes with depths of
equal magnitude, and `resolveCollisions` does not resolve the X axis there: it moves `y`
and flips `velY`, and leaves `x` and `velX` as they were. -/
theorem tie_break_resolves_x_refuted :
    isXOverlap tieBall cornerPaddle = true ∧ isYOverlap tieBall cornerPaddle = true ∧
    abs (xDepth tieBall cornerPaddle) = abs (yDepth tieBall cornerPaddle) ∧
    ¬ (((resolveCollisions tieBall cornerPaddle).1.x,
          (resolveCollisions tieBall cornerPaddle).1.velX) =
        handleCollision tieBall.x tieBall.size tieBall.velX
          cornerPaddle.rect.Min.X cornerPaddle.rect.Max.X ∧
       (resolveCollisions tieBall cornerPaddle).1.y = tieBall.y ∧
       (resolveCollisions tieBall cornerPaddle).1.velY = tieBall.velY) := by
  refine ⟨?_, ?_, ?_, ?_⟩
  · simp [isXOverlap, tieBall, cornerPaddle, image.Rect]
    norm_num
  · simp [isYOverlap, tieBall, cornerPaddle, image.Rect]
    norm_num
  · norm_num [xDepth, yDepth, minAbs, abs, tieBall, cornerPaddle, image.Rect]
  · norm_num [resolveCollisions, isXOverlap, isYOverlap, xDepth, yDepth, minAbs, abs,
      handleCollision, tieBall, cornerPaddle, image.Rect]

/-- C1 (amended): when both overlap flags hold and the two depths have equal magnitude,
`resolveCollisions` resolves the Y axis: `(y, velY)` become
`handleCollision(y, size, velY, paddle.rect.Min.Y, paddle.rect.Max.Y)` and `x` and `velX`
are left unchanged. -/
theorem tie_break_resolves_y (b : Ball) (p : Paddle)
    (hx : isXOverlap b p = true) (hy : isYOverlap b p = true)
    (htie : abs (xDepth b p) = abs (yDepth b p)) :
    ((resolveCollisions b p).1.y, (resolveCollisions b p).1.velY) =
        handleCollision b.y b.size b.velY p.rect.Min.Y p.rect.Max.Y ∧
      (resolveCollisions b p).1.x = b.x ∧ (resolveCollisions b p).1.velX = b.velX := by
  have hlt : ¬ abs (xDepth b p) < abs (yDepth b p) := by
    rw [htie]
    exact lt_irrefl _
  simp [resolveCollisions, hx, hy, hlt]

/-- C1 (amended), applied to `tieBall` and `cornerPaddle`: the ball is pushed above the
paddle (`y = 100 - 20 - 1`) and `velY` is flipped. -/
theorem tie_break_resolves_y_witness :
    ((resolveCollisions tieBall cornerPaddle).1.y,
        (resolveCollisions tieBall cornerPaddle).1.velY) =
        handleCollision tieBall.y tieBall.size tieBall.velY
          cornerPaddle.rect.Min.Y cornerPaddle.rect.Max.Y ∧
      (resolveCollisions tieBall cornerPaddle).1.x = tieBall.x ∧
      (resolveCollisions tieBall cornerPaddle).1.velX = tieBall.velX :=
  tie_break_resolves_y tieBall cornerPaddle
    (by simp [isXOverlap, tieBall, cornerPaddle, image.Rect]; norm_num)
    (by simp [isYOverlap, tieBall, cornerPaddle, image.Rect]; norm_num)
    (by norm_num [xDepth, yDepth, minAbs, abs, tieBall, cornerPaddle, image.Rect])

/-- The result of `maxClamp` lies in `[-max, max]` when `max` is not negative. -/
theorem maxClamp_abs_le (value max : Float32) (hmax : 0 ≤ max) :
    |maxClamp value max| ≤ max := by
  unfold maxClamp
  split_ifs with h1 h2
  · exact le_of_eq (abs_of_nonneg hmax)
  · rw [abs_neg]
    exact le_of_eq (abs_of_nonneg hmax)
  · exact abs_le.mpr ⟨le_of_lt (not_le.mp h2), le_of_lt (not_le.mp h1)⟩

/-- Truncation of an integer-valued float. -/
theorem toInt_intCast (n : ℤ) : toInt (n : Float32) = n := by
  simp [toInt]

/-- C2: if the rectangle recomputed during `Ball.Update` overlaps the rectangle of at
least one paddle, then after `Update` both `|velX|` and `|velY|` are at most `maxVelocity`,
whatever the velocity was before the tick. -/
theorem velocity_bound_after_collision (g : Game)
    (hit : g.ball.integrate.rect.Overlaps g.player1.rect = true ∨
      g.ball.integrate.rect.Overlaps g.player2.rect = true) :
    |(Ball.Update g).ball.velX| ≤ maxVelocity ∧ |(Ball.Update g).ball.velY| ≤ maxVelocity := by
  have hmax : (0 : Float32) ≤ maxVelocity := by norm_num [maxVelocity]
  have hhit : Ball.hitsPaddle g = true := by
    simpa [Ball.hitsPaddle] using hit
  rw [Ball.Update_eq]
  simp only [hhit, if_true, Ball.boost]
  exact ⟨maxClamp_abs_le _ _ hmax, maxClamp_abs_le _ _ hmax⟩

/-- C2 at `cornerGame`: the ball overlaps `player1` after integration, and the velocity
after the tick is within the bound. -/
theorem velocity_bound_after_collision_witness :
    |(Ball.Update cornerGame).ball.velX| ≤ maxVelocity ∧
      |(Ball.Update cornerGame).ball.velY| ≤ maxVelocity :=
  velocity_bound_after_collision cornerGame (Or.inl (by
    norm_num [cornerGame, cornerPaddle, Ball.integrate, image.Rect, image.Rectangle.Overlaps,
      image.Rectangle.Empty, toInt, Int.floor_eq_iff]))

/-- The fields of a paddle other than `x` and `rect` are not written by `Paddle.Update`. -/
theorem Paddle.Update_frame (p : Paddle) (keys : Key → Bool) :
    (p.Update keys).y = p.y ∧ (p.Update keys).width = p.width ∧
      (p.Update keys).height = p.height ∧ (p.Update keys).velocity = p.velocity ∧
      (p.Update keys).keyLeft = p.keyLeft ∧ (p.Update keys).keyRight = p.keyRight := by
  unfold Paddle.Update
  refine ⟨?_, ?_, ?_, ?_, ?_, ?_⟩ <;> (dsimp only; split_ifs <;> rfl)

/-- One `Paddle.Update` keeps `x` within `[0, screenWidth - width]`. -/
theorem Paddle.Update_x_mem (p : Paddle) (keys : Key → Bool) (hv : 0 ≤ p.velocity)
    (h0 : 0 ≤ p.x) (h1 : p.x ≤ (screenWidth : Float32) - p.width) :
    0 ≤ (p.Update keys).x ∧ (p.Update keys).x ≤ (screenWidth : Float32) - p.width := by
  unfold Paddle.Update
  dsimp only
  split_ifs <;> (try dsimp only at *) <;> constructor <;> linarith

/-- The method `Ball.Update` returns both paddles as they were. -/
theorem Ball.Update_paddles (g : Game) :
    (Ball.Update g).player1 = g.player1 ∧ (Ball.Update g).player2 = g.player2 := by
  rw [Ball.Update_eq]
  exact ⟨rfl, rfl⟩

/-- The paddle invariant: non-negative velocity and `x` within `[0, screenWidth - width]`. -/
theorem Game.run_paddles_contained (ticks : List (Key → Bool)) :
    ∀ g : Game,
      (0 ≤ g.player1.velocity ∧ 0 ≤ g.player1.x ∧
        g.player1.x ≤ (screenWidth : Float32) - g.player1.width) →
      (0 ≤ g.player2.velocity ∧ 0 ≤ g.player2.x ∧
        g.player2.x ≤ (screenWidth : Float32) - g.player2.width) →
      (0 ≤ (g.run ticks).player1.x ∧
        (g.run ticks).player1.x ≤ (screenWidth : Float32) - (g.run ticks).player1.width) ∧
      (0 ≤ (g.run ticks).player2.x ∧
        (g.run ticks).player2.x ≤ (screenWidth : Float32) - (g.run ticks).player2.width) := by
  induction ticks with
  | nil =>
    intro g h1 h2
    exact ⟨⟨h1.2.1, h1.2.2⟩, ⟨h2.2.1, h2.2.2⟩⟩
  | cons keys rest ih =>
    intro g h1 h2
    have e1 : (g.Update keys).player1 = g.player1.Update keys := by
      unfold Game.Update
      rw [(Ball.Update_paddles _).1]
    have e2 : (g.Update keys).player2 = g.player2.Update keys := by
      unfold Game.Update
      rw [(Ball.Update_paddles _).2]
    have f1 := Paddle.Update_frame g.player1 keys
    have f2 := Paddle.Update_frame g.player2 keys
    have b1 := Paddle.Update_x_mem g.player1 keys h1.1 h1.2.1 h1.2.2
    have b2 := Paddle.Update_x_mem g.player2 keys h2.1 h2.2.1 h2.2.2
    apply ih (g.Update keys)
    · rw [e1, f1.2.2.2.1, f1.2.1]
      exact ⟨h1.1, b1⟩
    · rw [e2, f2.2.2.2.1, f2.2.1]
      exact ⟨h2.1, b2⟩

/-- C3: one `Paddle.Update` of a paddle with `velocity ≥ 0` and `0 ≤ x ≤ 640 - width` ends
with `0 ≤ x ≤ 640 - width` for every key state; hence both paddles of the game built in
`main` satisfy `0 ≤ x ≤ 640 - width` after every sequence of ticks, whatever the keys. -/
theorem paddle_edge_containment :
    (∀ (p : Paddle) (keys : Key → Bool), 0 ≤ p.velocity → 0 ≤ p.x →
      p.x ≤ (screenWidth : Float32) - p.width →
      0 ≤ (p.Update keys).x ∧ (p.Update keys).x ≤ (screenWidth : Float32) - p.width) ∧
    (∀ ticks : List (Key → Bool),
      (0 ≤ (mainGame.run ticks).player1.x ∧
        (mainGame.run ticks).player1.x ≤
          (screenWidth : Float32) - (mainGame.run ticks).player1.width) ∧
      (0 ≤ (mainGame.run ticks).player2.x ∧
        (mainGame.run ticks).player2.x ≤
          (screenWidth : Float32) - (mainGame.run ticks).player2.width)) := by
  refine ⟨fun p keys hv h0 h1 => Paddle.Update_x_mem p keys hv h0 h1, fun ticks => ?_⟩
  apply Game.run_paddles_contained ticks mainGame
  · norm_num [mainGame, mainPlayer1, screenWidth]
  · norm_num [mainGame, mainPlayer2, screenWidth]

/-- C3 at the paddle of `main` with the left key held: `x` goes from 270 to 260 and stays
within `[0, 540]`; and after two ticks with both keys of every paddle held. -/
theorem paddle_edge_containment_witness :
    (0 ≤ (mainPlayer1.Update (fun k => decide (k = Key.KeyS))).x ∧
      (mainPlayer1.Update (fun k => decide (k = Key.KeyS))).x ≤
        (screenWidth : Float32) - mainPlayer1.width) ∧
    (0 ≤ (mainGame.run [fun _ => true, fun _ => true]).player1.x ∧
      (mainGame.run [fun _ => true, fun _ => true]).player1.x ≤
        (screenWidth : Float32) - (mainGame.run [fun _ => true, fun _ => true]).player1.width) :=
  ⟨paddle_edge_containment.1 mainPlayer1 (fun k => decide (k = Key.KeyS))
      (by norm_num [mainPlayer1]) (by norm_num [mainPlayer1, screenWidth])
      (by norm_num [mainPlayer1, screenWidth]),
    (paddle_edge_containment.2 [fun _ => true, fun _ => true]).1⟩

/-- C5: `resolveCollisions` changes position and velocity on at most one axis: either `x`
and `velX` are as before the call, or `y` and `velY` are; the ball's `size` and `rect` and
the whole paddle are unchanged in every case. -/
theorem resolveCollisions_one_axis (b : Ball) (p : Paddle) :
    (((resolveCollisions b p).1.x = b.x ∧ (resolveCollisions b p).1.velX = b.velX) ∨
      ((resolveCollisions b p).1.y = b.y ∧ (resolveCollisions b p).1.velY = b.velY)) ∧
    (resolveCollisions b p).1.size = b.size ∧ (resolveCollisions b p).1.rect = b.rect ∧
    (resolveCollisions b p).2 = p := by
  refine ⟨?_, (resolveCollisions_frame b p).1, (resolveCollisions_frame b p).2.1,
    resolveCollisions_snd b p⟩
  unfold resolveCollisions
  split_ifs
  · exact Or.inr ⟨rfl, rfl⟩
  · exact Or.inl ⟨rfl, rfl⟩
  · exact Or.inr ⟨rfl, rfl⟩
  · exact Or.inl ⟨rfl, rfl⟩
  · exact Or.inl ⟨rfl, rfl⟩

/-- C6: when neither `isXOverlap` nor `isYOverlap` holds, `resolveCollisions` leaves the
ball's `x`, `y`, `velX` and `velY` exactly as they were. -/
theorem resolveCollisions_noop (b : Ball) (p : Paddle)
    (hx : isXOverlap b p = false) (hy : isYOverlap b p = false) :
    (resolveCollisions b p).1.x = b.x ∧ (resolveCollisions b p).1.y = b.y ∧
      (resolveCollisions b p).1.velX = b.velX ∧ (resolveCollisions b p).1.velY = b.velY := by
  simp [resolveCollisions, hx, hy]

/-- C6 at `farBall` and `cornerPaddle`: neither overlap flag holds and the ball is
unchanged. -/
theorem resolveCollisions_noop_witness :
    (resolveCollisions farBall cornerPaddle).1.x = farBall.x ∧
      (resolveCollisions farBall cornerPaddle).1.y = farBall.y ∧
      (resolveCollisions farBall cornerPaddle).1.velX = farBall.velX ∧
      (resolveCollisions farBall cornerPaddle).1.velY = farBall.velY :=
  resolveCollisions_noop farBall cornerPaddle
    (by simp [isXOverlap, farBall, cornerPaddle, image.Rect]; norm_num)
    (by simp [isYOverlap, farBall, cornerPaddle, image.Rect]; norm_num)

/-- The paddles `restingPlayer1` and `restingPlayer2` are the paddles of `main` after one
update with no key held. -/
theorem restingPlayers_eq :
    mainPlayer1.Update (fun _ => false) = restingPlayer1 ∧
      mainPlayer2.Update (fun _ => false) = restingPlayer2 := by
  constructor <;>
  norm_num [Paddle.Update, restingPlayer1, restingPlayer2, mainPlayer1, mainPlayer2,
    screenWidth, screenHeight, toInt, Int.floor_eq_iff, image.Rect]

/-- C7: when the rectangle recomputed by `Ball.Update` overlaps neither paddle, then if it
has `Min.X ≤ 0` or `Max.X ≥ 640` the tick ends with `velX` negated and `x` equal to the old
`x` plus the old `velX` (no position correction), and likewise for `Min.Y ≤ 0` or
`Max.Y ≥ 480` with `velY` and `y`; in particular a ball at `x = 0` with `velX = -2.5` ends
the tick with `velX = 2.5` at `x = -2.5`. -/
theorem wall_bounce (g : Game)
    (h1 : g.ball.integrate.rect.Overlaps g.player1.rect = false)
    (h2 : g.ball.integrate.rect.Overlaps g.player2.rect = false) :
    ((g.ball.integrate.rect.Min.X ≤ 0 ∨ g.ball.integrate.rect.Max.X ≥ screenWidth) →
      (Ball.Update g).ball.velX = -g.ball.velX ∧
        (Ball.Update g).ball.x = g.ball.x + g.ball.velX) ∧
    ((g.ball.integrate.rect.Min.Y ≤ 0 ∨ g.ball.integrate.rect.Max.Y ≥ screenHeight) →
      (Ball.Update g).ball.velY = -g.ball.velY ∧
        (Ball.Update g).ball.y = g.ball.y + g.ball.velY) ∧
    (g.ball.x = 0 → g.ball.velX = -2.5 →
      (Ball.Update g).ball.velX = 2.5 ∧ (Ball.Update g).ball.x = -2.5) := by
  have hhit : Ball.hitsPaddle g = false := by
    simp [Ball.hitsPaddle, h1, h2]
  have hres : Ball.resolved g = g.ball.integrate.edgeBounce := by
    simp [Ball.resolved, h1, h2]
  have hupd : (Ball.Update g).ball = g.ball.integrate.edgeBounce := by
    rw [Ball.Update_eq]
    simp [hhit, hres]
  have hX : (g.ball.integrate.rect.Min.X ≤ 0 ∨ g.ball.integrate.rect.Max.X ≥ screenWidth) →
      (Ball.Update g).ball.velX = -g.ball.velX ∧
        (Ball.Update g).ball.x = g.ball.x + g.ball.velX := by
    intro hedge
    rw [hupd]
    refine ⟨?_, rfl⟩
    show (if g.ball.integrate.rect.Min.X ≤ 0 ∨ g.ball.integrate.rect.Max.X ≥ screenWidth
      then -g.ball.integrate.velX else g.ball.integrate.velX) = -g.ball.velX
    rw [if_pos hedge]
    rfl
  refine ⟨hX, ?_, ?_⟩
  · intro hedge
    rw [hupd]
    refine ⟨?_, rfl⟩
    show (if g.ball.integrate.rect.Min.Y ≤ 0 ∨ g.ball.integrate.rect.Max.Y ≥ screenHeight
      then -g.ball.integrate.velY else g.ball.integrate.velY) = -g.ball.velY
    rw [if_pos hedge]
    rfl
  · intro hx0 hvx
    have hmin : g.ball.integrate.rect.Min.X ≤ 0 := by
      have ht : toInt (g.ball.x + g.ball.velX) = -2 := by
        rw [hx0, hvx]
        norm_num [toInt, Int.ceil_eq_iff]
      show (if toInt (g.ball.x + g.ball.velX) > toInt (g.ball.x + g.ball.velX + g.ball.size)
        then toInt (g.ball.x + g.ball.velX + g.ball.size)
        else toInt (g.ball.x + g.ball.velX)) ≤ 0
      split_ifs with hgt
      · rw [ht] at hgt
        omega
      · rw [ht]
        decide
    have hb := hX (Or.inl hmin)
    rw [hb.1, hb.2, hx0, hvx]
    norm_num

/-- C7 at `leftWallGame` (ball at `x = 0`, `velX = -2.5`) and at `bottomWallGame` (ball
reaching `Max.Y = 480`): the velocity flips and the position is the integrated one. -/
theorem wall_bounce_witness :
    ((Ball.Update leftWallGame).ball.velX = 2.5 ∧ (Ball.Update leftWallGame).ball.x = -2.5) ∧
    ((Ball.Update bottomWallGame).ball.velY = -bottomWallGame.ball.velY ∧
      (Ball.Update bottomWallGame).ball.y =
        bottomWallGame.ball.y + bottomWallGame.ball.velY) :=
  ⟨(wall_bounce leftWallGame
      (by norm_num [leftWallGame, restingPlayer1, mainPlayer1, Ball.integrate, image.Rect,
        image.Rectangle.Overlaps, image.Rectangle.Empty, toInt, Int.floor_eq_iff,
        Int.ceil_eq_iff])
      (by norm_num [leftWallGame, restingPlayer2, mainPlayer2, Ball.integrate, image.Rect,
        image.Rectangle.Overlaps, image.Rectangle.Empty, toInt, Int.floor_eq_iff,
        Int.ceil_eq_iff])).2.2 rfl (by norm_num [leftWallGame]),
   (wall_bounce bottomWallGame
      (by norm_num [bottomWallGame, restingPlayer1, mainPlayer1, Ball.integrate, image.Rect,
        image.Rectangle.Overlaps, image.Rectangle.Empty, toInt, Int.floor_eq_iff,
        Int.ceil_eq_iff])
      (by norm_num [bottomWallGame, restingPlayer2, mainPlayer2, Ball.integrate, image.Rect,
        image.Rectangle.Overlaps, image.Rectangle.Empty, toInt, Int.floor_eq_iff,
        Int.ceil_eq_iff])).2.1
      (Or.inr (by norm_num [bottomWallGame, Ball.integrate, image.Rect, toInt,
        Int.floor_eq_iff, screenHeight]))⟩

/-- C8: with `vx`, `vy` the velocity of the ball after integration, edge bounce and paddle
resolution (`Ball.resolved`): if the rectangle overlapped at least one paddle in this tick,
`Ball.Update` ends with `velX = maxClamp(vx + vx*0.05, 5.5)` and
`velY = maxClamp(vy + vy*0.05, 5.5)`, both axes boosted; if it overlapped neither paddle,
it ends with `velX = vx` and `velY = vy`. -/
theorem collision_boost (g : Game) :
    ((g.ball.integrate.rect.Overlaps g.player1.rect = true ∨
        g.ball.integrate.rect.Overlaps g.player2.rect = true) →
      (Ball.Update g).ball.velX =
          maxClamp ((Ball.resolved g).velX + (Ball.resolved g).velX * 0.05) 5.5 ∧
        (Ball.Update g).ball.velY =
          maxClamp ((Ball.resolved g).velY + (Ball.resolved g).velY * 0.05) 5.5) ∧
    ((g.ball.integrate.rect.Overlaps g.player1.rect = false ∧
        g.ball.integrate.rect.Overlaps g.player2.rect = false) →
      (Ball.Update g).ball.velX = (Ball.resolved g).velX ∧
        (Ball.Update g).ball.velY = (Ball.resolved g).velY) := by
  constructor
  · intro hit
    have hhit : Ball.hitsPaddle g = true := by
      simpa [Ball.hitsPaddle] using hit
    rw [Ball.Update_eq]
    simp [hhit, Ball.boost, maxVelocity]
  · intro hno
    have hhit : Ball.hitsPaddle g = false := by
      simp [Ball.hitsPaddle, hno.1, hno.2]
    rw [Ball.Update_eq]
    simp [hhit]

/-- C8 at `cornerGame` (the ball overlaps `player1`: the resolver flips only `velY`, both
components are boosted) and at `leftWallGame` (no paddle overlapped: no boost). -/
theorem collision_boost_witness :
    ((Ball.Update cornerGame).ball.velX =
        maxClamp ((Ball.resolved cornerGame).velX + (Ball.resolved cornerGame).velX * 0.05) 5.5 ∧
      (Ball.Update cornerGame).ball.velY =
        maxClamp ((Ball.resolved cornerGame).velY + (Ball.resolved cornerGame).velY * 0.05) 5.5) ∧
    ((Ball.Update leftWallGame).ball.velX = (Ball.resolved leftWallGame).velX ∧
      (Ball.Update leftWallGame).ball.velY = (Ball.resolved leftWallGame).velY) :=
  ⟨(collision_boost cornerGame).1 (Or.inl (by
      norm_num [cornerGame, cornerPaddle, Ball.integrate, image.Rect, image.Rectangle.Overlaps,
        image.Rectangle.Empty, toInt, Int.floor_eq_iff])),
   (collision_boost leftWallGame).2
    ⟨by norm_num [leftWallGame, restingPlayer1, mainPlayer1, Ball.integrate, image.Rect,
        image.Rectangle.Overlaps, image.Rectangle.Empty, toInt, Int.floor_eq_iff,
        Int.ceil_eq_iff],
     by norm_num [leftWallGame, restingPlayer2, mainPlayer2, Ball.integrate, image.Rect,
        image.Rectangle.Overlaps, image.Rectangle.Empty, toInt, Int.floor_eq_iff,
        Int.ceil_eq_iff]⟩⟩

/-- C9: when the rectangle recomputed at the start of `Ball.Update` overlaps the rectangles
of both paddles, the ball after `Update` is the integrated and edge-bounced ball resolved
against `player1`, then against `player2`, then boosted and clamped once. -/
theorem both_paddles_resolved (g : Game)
    (h1 : g.ball.integrate.rect.Overlaps g.player1.rect = true)
    (h2 : g.ball.integrate.rect.Overlaps g.player2.rect = true) :
    (Ball.Update g).ball =
      (resolveCollisions (resolveCollisions g.ball.integrate.edgeBounce g.player1).1
        g.player2).1.boost := by
  have hhit : Ball.hitsPaddle g = true := by
    simp [Ball.hitsPaddle, h1]
  rw [Ball.Update_eq]
  simp [hhit, Ball.resolved, h1, h2]

/-- C9 at `doubleHitGame`, whose ball overlaps both paddles after integration. -/
theorem both_paddles_resolved_witness :
    (Ball.Update doubleHitGame).ball =
      (resolveCollisions
        (resolveCollisions doubleHitGame.ball.integrate.edgeBounce doubleHitGame.player1).1
        doubleHitGame.player2).1.boost :=
  both_paddles_resolved doubleHitGame
    (by norm_num [doubleHitGame, cornerPaddle, Ball.integrate, image.Rect,
      image.Rectangle.Overlaps, image.Rectangle.Empty, toInt, Int.floor_eq_iff])
    (by norm_num [doubleHitGame, cornerPaddle, Ball.integrate, image.Rect,
      image.Rectangle.Overlaps, image.Rectangle.Empty, toInt, Int.floor_eq_iff])

/-- C10: `handleCollision` returns `(paddleMin - size - 1, -vel)` when `pos + size > paddleMin`
and `pos < paddleMin`; otherwise `(paddleMax + 1, -vel)` when `pos < paddleMax` and
`pos + size > paddleMax`; otherwise `(pos, vel)`.  When both conditions hold the min-side
result is returned. -/
theorem handleCollision_cases (pos size vel paddleMin paddleMax : Float32) :
    ((pos + size > paddleMin ∧ pos < paddleMin) →
      handleCollision pos size vel paddleMin paddleMax = (paddleMin - size - 1, -vel)) ∧
    (¬ (pos + size > paddleMin ∧ pos < paddleMin) →
      (pos < paddleMax ∧ pos + size > paddleMax) →
      handleCollision pos size vel paddleMin paddleMax = (paddleMax + 1, -vel)) ∧
    (¬ (pos + size > paddleMin ∧ pos < paddleMin) →
      ¬ (pos < paddleMax ∧ pos + size > paddleMax) →
      handleCollision pos size vel paddleMin paddleMax = (pos, vel)) ∧
    ((pos + size > paddleMin ∧ pos < paddleMin) →
      (pos < paddleMax ∧ pos + size > paddleMax) →
      handleCollision pos size vel paddleMin paddleMax = (paddleMin - size - 1, -vel)) := by
  unfold handleCollision
  refine ⟨fun h => if_pos h, fun h1 h2 => ?_, fun h1 h2 => ?_, fun h _ => if_pos h⟩
  · rw [if_neg h1, if_pos h2]
  · rw [if_neg h1, if_neg h2]

/-- C10 at four inputs against a paddle spanning `[100, 108]`: a ball entering from the
min side, one leaving over the max side, one inside, and one spanning the whole paddle. -/
theorem handleCollision_cases_witness :
    handleCollision 90 20 2.5 100 108 = (100 - 20 - 1, -2.5) ∧
    handleCollision 102 20 2.5 100 108 = (108 + 1, -2.5) ∧
    handleCollision 102 4 2.5 100 108 = (102, 2.5) ∧
    handleCollision 95 20 2.5 100 108 = (100 - 20 - 1, -2.5) :=
  ⟨(handleCollision_cases 90 20 2.5 100 108).1 (by norm_num),
   (handleCollision_cases 102 20 2.5 100 108).2.1 (by norm_num) (by norm_num),
   (handleCollision_cases 102 4 2.5 100 108).2.2.1 (by norm_num) (by norm_num),
   (handleCollision_cases 95 20 2.5 100 108).2.2.2 (by norm_num) (by norm_num)⟩

/-- C11 (as stated, refuted): `-10` and `10` have equal magnitude and `minAbs(-10, 10)` is
the second argument `10`, not the first. -/
theorem minAbs_tie_first_refuted :
    abs (-10) = abs 10 ∧ minAbs (-10) 10 = 10 ∧ ¬ (minAbs (-10) 10 = -10) := by
  norm_num [minAbs, abs]

/-- C11 (amended): `minAbs` returns the argument of smaller magnitude, and on a tie it
returns the second argument: `abs a < abs b` gives `a`, `abs b < abs a` gives `b`, and
`abs a = abs b` gives `b`. -/
theorem minAbs_cases (a b : Float32) :
    (abs a < abs b → minAbs a b = a) ∧ (abs b < abs a → minAbs a b = b) ∧
      (abs a = abs b → minAbs a b = b) := by
  unfold minAbs
  refine ⟨fun h => if_pos h, fun h => if_neg (not_lt.mpr (le_of_lt h)), fun h => ?_⟩
  rw [h]
  exact if_neg (lt_irrefl _)

/-- C11 (amended) at concrete arguments: `-3` against `10`, `10` against `-3`, and the tie
`-10` against `10`. -/
theorem minAbs_cases_witness :
    minAbs (-3) 10 = -3 ∧ minAbs 10 (-3) = -3 ∧ minAbs (-10) 10 = 10 :=
  ⟨(minAbs_cases (-3) 10).1 (by norm_num [abs]),
   (minAbs_cases 10 (-3)).2.1 (by norm_num [abs]),
   (minAbs_cases (-10) 10).2.2 (by norm_num [abs])⟩

/-- C12: for `max ≥ 0`, `maxClamp(value, max)` equals the reference clamp
`max(-max, min(value, max))`: it is `max` when `value ≥ max`, `-max` when `value ≤ -max`,
`value` otherwise, and it lies in `[-max, max]`. -/
theorem maxClamp_eq_clampSymmetric (value max : Float32) (hmax : 0 ≤ max) :
    maxClamp value max = clampSymmetric value max ∧
    (value ≥ max → maxClamp value max = max) ∧
    (value ≤ -max → maxClamp value max = -max) ∧
    (¬ value ≥ max → ¬ value ≤ -max → maxClamp value max = value) ∧
    -max ≤ maxClamp value max ∧ maxClamp value max ≤ max := by
  have hbound := abs_le.mp (maxClamp_abs_le value max hmax)
  refine ⟨?_, ?_, ?_, ?_, hbound.1, hbound.2⟩
  · unfold maxClamp clampSymmetric
    split_ifs with h1 h2
    · rw [min_eq_right h1, max_eq_right (by linarith)]
    · rw [min_eq_left (le_of_lt (not_le.mp h1)), max_eq_left h2]
    · rw [min_eq_left (le_of_lt (not_le.mp h1)), max_eq_right (le_of_lt (not_le.mp h2))]
  · intro h
    unfold maxClamp
    rw [if_pos h]
  · intro h
    unfold maxClamp
    split_ifs with h1
    · have h1' : max ≤ value := h1
      linarith
    · rfl
  · intro h1 h2
    unfold maxClamp
    rw [if_neg h1, if_neg h2]

/-- C12 at `maxVelocity`: a value above the bound, one below its negation, one inside. -/
theorem maxClamp_eq_clampSymmetric_witness :
    maxClamp 7 maxVelocity = maxVelocity ∧ maxClamp (-7) maxVelocity = -maxVelocity ∧
      maxClamp 2.625 maxVelocity = 2.625 :=
  ⟨(maxClamp_eq_clampSymmetric 7 maxVelocity (by norm_num [maxVelocity])).2.1
      (by norm_num [maxVelocity]),
   (maxClamp_eq_clampSymmetric (-7) maxVelocity (by norm_num [maxVelocity])).2.2.1
      (by norm_num [maxVelocity]),
   (maxClamp_eq_clampSymmetric 2.625 maxVelocity (by norm_num [maxVelocity])).2.2.2.1
      (by norm_num [maxVelocity]) (by norm_num [maxVelocity])⟩

/-- C13: the new `x` of `Paddle.Update` is the reference `paddleStep` (left: `max(x -
velocity, 0)`, then right: `min(x + velocity, 640 - width)`); with neither key pressed `x`
is unchanged, with both pressed it is `min(max(x - velocity, 0) + velocity, 640 - width)`;
`y`, `width`, `height` and `velocity` are unchanged and `rect` is the rectangle of the
truncated corners of the new position. -/
theorem Paddle.Update_two_clamped_steps (p : Paddle) (keys : Key → Bool) :
    (p.Update keys).x = paddleStep p.x p.velocity p.width (keys p.keyLeft) (keys p.keyRight) ∧
    (keys p.keyLeft = false → keys p.keyRight = false → (p.Update keys).x = p.x) ∧
    (keys p.keyLeft = true → keys p.keyRight = true →
      (p.Update keys).x = Min.min (Max.max (p.x - p.velocity) 0 + p.velocity) (640 - p.width)) ∧
    (p.Update keys).y = p.y ∧ (p.Update keys).width = p.width ∧
    (p.Update keys).height = p.height ∧ (p.Update keys).velocity = p.velocity ∧
    (p.Update keys).rect =
      image.Rect (toInt (p.Update keys).x) (toInt p.y) (toInt ((p.Update keys).x + p.width))
        (toInt (p.y + p.height)) := by
  have hf := Paddle.Update_frame p keys
  have hx : (p.Update keys).x =
      paddleStep p.x p.velocity p.width (keys p.keyLeft) (keys p.keyRight) := by
    unfold Paddle.Update paddleStep
    dsimp only
    have hsw : (screenWidth : Float32) = 640 := by norm_num [screenWidth]
    rw [hsw]
    cases hl : keys p.keyLeft <;> cases hr : keys p.keyRight
    · simp [hr]
    · simp only [Bool.false_eq_true, if_false, if_true, hr]
      by_cases h1 : p.x + p.velocity > 640 - p.width
      · simp only [h1, if_true]
        exact (min_eq_right (le_of_lt h1)).symm
      · simp only [h1, if_false]
        exact (min_eq_left (not_lt.mp h1)).symm
    · by_cases h0 : p.x - p.velocity < 0
      · have hm : Max.max (p.x - p.velocity) 0 = 0 := max_eq_right (le_of_lt h0)
        simp only [Bool.false_eq_true, if_false, if_true, hr, h0, hm]
      · have hm : Max.max (p.x - p.velocity) 0 = p.x - p.velocity := max_eq_left (not_lt.mp h0)
        simp only [Bool.false_eq_true, if_false, if_true, hr, h0, hm]
    · by_cases h0 : p.x - p.velocity < 0
      · have hm : Max.max (p.x - p.velocity) 0 = 0 := max_eq_right (le_of_lt h0)
        simp only [if_true, hr, h0, hm]
        by_cases h1 : (0 : Float32) + p.velocity > 640 - p.width
        · simp only [h1, if_true]
          exact (min_eq_right (le_of_lt h1)).symm
        · simp only [h1, if_false]
          exact (min_eq_left (not_lt.mp h1)).symm
      · have hm : Max.max (p.x - p.velocity) 0 = p.x - p.velocity := max_eq_left (not_lt.mp h0)
        simp only [if_true, if_false, hr, h0, hm]
        by_cases h1 : p.x - p.velocity + p.velocity > 640 - p.width
        · simp only [h1, if_true]
          exact (min_eq_right (le_of_lt h1)).symm
        · simp only [h1, if_false]
          exact (min_eq_left (not_lt.mp h1)).symm
  refine ⟨hx, ?_, ?_, hf.1, hf.2.1, hf.2.2.1, hf.2.2.2.1, ?_⟩
  · intro hl hr
    rw [hx, hl, hr]
    rfl
  · intro hl hr
    rw [hx, hl, hr]
    rfl
  · unfold Paddle.Update
    dsimp only
    split_ifs <;> rfl

/-- C13 at the paddle of `main`: with no key held `x` stays, with every key held `x` is
`min(max(x - velocity, 0) + velocity, 640 - width)`. -/
theorem Paddle.Update_two_clamped_steps_witness :
    (mainPlayer1.Update (fun _ => false)).x = mainPlayer1.x ∧
    (mainPlayer1.Update (fun _ => true)).x =
      Min.min (Max.max (mainPlayer1.x - mainPlayer1.velocity) 0 + mainPlayer1.velocity)
        (640 - mainPlayer1.width) :=
  ⟨(Paddle.Update_two_clamped_steps mainPlayer1 (fun _ => false)).2.1 rfl rfl,
   (Paddle.Update_two_clamped_steps mainPlayer1 (fun _ => true)).2.2.1 rfl rfl⟩

/-- C14: `Game.Layout` returns `(640, 480)` for every pair of integers, zero and negative
values included. -/
theorem Game.Layout_fixed (g : Game) (outsideWidth outsideHeight : ℤ) :
    g.Layout outsideWidth outsideHeight = (640, 480) := by
  rfl

/-- Truncation toward zero is monotone. -/
theorem toInt_mono {a b : Float32} (h : a ≤ b) : toInt a ≤ toInt b := by
  unfold toInt
  split_ifs with ha hb hb
  · exact Int.floor_mono h
  · exact absurd (le_trans ha h) hb
  · have h1 : ⌈a⌉ ≤ 0 := Int.ceil_le.mpr (by exact_mod_cast le_of_lt (not_le.mp ha))
    have h2 : 0 ≤ ⌊b⌋ := Int.floor_nonneg.mpr hb
    exact le_trans h1 h2
  · exact Int.ceil_mono h

/-- An integer strictly below the truncation of `v` is strictly below `v`. -/
theorem lt_of_lt_toInt {n : ℤ} {v : Float32} (h : n < toInt v) : (n : Float32) < v := by
  unfold toInt at h
  split_ifs at h with hv
  · have h1 : ((n : ℤ) : Float32) < ((⌊v⌋ : ℤ) : Float32) := by exact_mod_cast h
    exact lt_of_lt_of_le h1 (Int.floor_le v)
  · exact Int.lt_ceil.mp h

/-- A value whose truncation is strictly below an integer is strictly below it. -/
theorem lt_of_toInt_lt {a : Float32} {n : ℤ} (h : toInt a < n) : a < (n : Float32) := by
  unfold toInt at h
  split_ifs at h with ha
  · have h1 : ((⌊a⌋ + 1 : ℤ) : Float32) ≤ ((n : ℤ) : Float32) := by exact_mod_cast h
    have h2 : a < ((⌊a⌋ + 1 : ℤ) : Float32) := by
      push_cast
      exact Int.lt_floor_add_one a
    exact lt_of_lt_of_le h2 h1
  · have h1 : ((⌈a⌉ : ℤ) : Float32) < ((n : ℤ) : Float32) := by exact_mod_cast h
    exact lt_of_le_of_lt (Int.le_ceil a) h1

/-- The velocity returned by `handleCollision` has the magnitude of the one it was given. -/
theorem handleCollision_abs_vel (pos size vel pmin pmax : Float32) :
    |(handleCollision pos size vel pmin pmax).2| = |vel| := by
  unfold handleCollision
  split_ifs
  · exact abs_neg vel
  · exact abs_neg vel
  · rfl

/-- The function `resolveCollisions` keeps the magnitude of both velocity components. -/
theorem resolveCollisions_abs_vel (b : Ball) (p : Paddle) :
    |(resolveCollisions b p).1.velX| = |b.velX| ∧ |(resolveCollisions b p).1.velY| = |b.velY| := by
  unfold resolveCollisions
  split_ifs
  · exact ⟨handleCollision_abs_vel _ _ _ _ _, rfl⟩
  · exact ⟨rfl, handleCollision_abs_vel _ _ _ _ _⟩
  · exact ⟨handleCollision_abs_vel _ _ _ _ _, rfl⟩
  · exact ⟨rfl, handleCollision_abs_vel _ _ _ _ _⟩
  · exact ⟨rfl, rfl⟩

/-- Integration and edge bounce keep the magnitude of both velocity components. -/
theorem edgeBounce_abs_vel (b : Ball) :
    |b.integrate.edgeBounce.velX| = |b.velX| ∧ |b.integrate.edgeBounce.velY| = |b.velY| := by
  unfold Ball.edgeBounce
  dsimp only
  constructor
  · split_ifs
    · exact abs_neg _
    · rfl
  · split_ifs
    · exact abs_neg _
    · rfl

/-- Before the boost, the velocity components have the magnitude they had before the
tick. -/
theorem Ball.resolved_abs_vel (g : Game) :
    |(Ball.resolved g).velX| = |g.ball.velX| ∧ |(Ball.resolved g).velY| = |g.ball.velY| := by
  have h0 := edgeBounce_abs_vel g.ball
  have ha := resolveCollisions_abs_vel g.ball.integrate.edgeBounce g.player1
  have hb := resolveCollisions_abs_vel g.ball.integrate.edgeBounce g.player2
  have hc := resolveCollisions_abs_vel
    (resolveCollisions g.ball.integrate.edgeBounce g.player1).1 g.player2
  unfold Ball.resolved
  dsimp only
  split_ifs
  · exact ⟨hc.1.trans (ha.1.trans h0.1), hc.2.trans (ha.2.trans h0.2)⟩
  · exact ⟨hb.1.trans h0.1, hb.2.trans h0.2⟩
  · exact ⟨ha.1.trans h0.1, ha.2.trans h0.2⟩
  · exact h0

/-- The boosted and clamped component is at least as large in magnitude as the component
it is computed from, when that one is within the bound. -/
theorem maxClamp_boost_ge (v m : Float32) (hv : |v| ≤ m) :
    |v| ≤ |maxClamp (v + v * 0.05) m| := by
  have hm : 0 ≤ m := le_trans (abs_nonneg v) hv
  unfold maxClamp
  split_ifs with h1 h2
  · rw [abs_of_nonneg hm]
    exact hv
  · rw [abs_neg, abs_of_nonneg hm]
    exact hv
  · have e : v + v * 0.05 = v * 1.05 := by ring
    rw [e, abs_mul]
    have h105 : |(1.05 : Float32)| = 1.05 := abs_of_nonneg (by norm_num)
    rw [h105]
    nlinarith [abs_nonneg v]

/-- One `Ball.Update` keeps both velocity components within `maxVelocity`. -/
theorem Ball.Update_vel_bound (g : Game) (hx : |g.ball.velX| ≤ maxVelocity)
    (hy : |g.ball.velY| ≤ maxVelocity) :
    |(Ball.Update g).ball.velX| ≤ maxVelocity ∧ |(Ball.Update g).ball.velY| ≤ maxVelocity := by
  have hmax : (0 : Float32) ≤ maxVelocity := by norm_num [maxVelocity]
  have hr := Ball.resolved_abs_vel g
  rw [Ball.Update_eq]
  dsimp only
  split_ifs
  · exact ⟨maxClamp_abs_le _ _ hmax, maxClamp_abs_le _ _ hmax⟩
  · rw [hr.1, hr.2]
    exact ⟨hx, hy⟩

/-- The ball handed to `Ball.Update` by `Game.Update` is the ball of the game. -/
theorem Game.Update_ball (g : Game) (keys : Key → Bool) :
    (g.Update keys).ball =
      (Ball.Update { g with player1 := g.player1.Update keys,
                            player2 := g.player2.Update keys }).ball := by
  rfl

/-- The velocity bound is kept by every sequence of ticks. -/
theorem Game.run_vel_bound (ticks : List (Key → Bool)) :
    ∀ g : Game, |g.ball.velX| ≤ maxVelocity → |g.ball.velY| ≤ maxVelocity →
      |(g.run ticks).ball.velX| ≤ maxVelocity ∧ |(g.run ticks).ball.velY| ≤ maxVelocity := by
  induction ticks with
  | nil =>
    intro g hx hy
    exact ⟨hx, hy⟩
  | cons keys rest ih =>
    intro g hx hy
    have h := Ball.Update_vel_bound
      { g with player1 := g.player1.Update keys, player2 := g.player2.Update keys } hx hy
    rw [← Game.Update_ball] at h
    exact ih (g.Update keys) h.1 h.2

/-- C17: if `|velX| ≤ 5.5` and `|velY| ≤ 5.5` before `Ball.Update`, they hold after it,
whether or not an edge bounce or a paddle collision happened; hence they hold after every
sequence of ticks of the game constructed in `main`. -/
theorem velocity_bound_invariant :
    (∀ g : Game, |g.ball.velX| ≤ 5.5 → |g.ball.velY| ≤ 5.5 →
      |(Ball.Update g).ball.velX| ≤ 5.5 ∧ |(Ball.Update g).ball.velY| ≤ 5.5) ∧
    (∀ ticks : List (Key → Bool),
      |(mainGame.run ticks).ball.velX| ≤ 5.5 ∧ |(mainGame.run ticks).ball.velY| ≤ 5.5) := by
  have e : maxVelocity = 5.5 := rfl
  constructor
  · intro g hx hy
    have h := Ball.Update_vel_bound g (by rw [e]; exact hx) (by rw [e]; exact hy)
    rw [e] at h
    exact h
  · intro ticks
    have h := Game.run_vel_bound ticks mainGame
      (by norm_num [mainGame, mainBall, maxVelocity, abs_le])
      (by norm_num [mainGame, mainBall, maxVelocity, abs_le])
    rw [e] at h
    exact h

/-- C17 at `cornerGame` (a tick with a paddle collision) and after two ticks of the game
of `main` with every key held. -/
theorem velocity_bound_invariant_witness :
    (|(Ball.Update cornerGame).ball.velX| ≤ 5.5 ∧ |(Ball.Update cornerGame).ball.velY| ≤ 5.5) ∧
    (|(mainGame.run [fun _ => true, fun _ => true]).ball.velX| ≤ 5.5 ∧
      |(mainGame.run [fun _ => true, fun _ => true]).ball.velY| ≤ 5.5) :=
  ⟨velocity_bound_invariant.1 cornerGame (by norm_num [cornerGame, abs_le])
      (by norm_num [cornerGame, abs_le]),
   velocity_bound_invariant.2 [fun _ => true, fun _ => true]⟩

/-- C18: if `|velX| ≤ 5.5` and `|velY| ≤ 5.5` before `Ball.Update`, then after it neither
magnitude is smaller than before, and both are equal to the old ones on a tick in which
the ball overlaps neither paddle. -/
theorem ball_never_slows (g : Game) (hx : |g.ball.velX| ≤ 5.5) (hy : |g.ball.velY| ≤ 5.5) :
    |g.ball.velX| ≤ |(Ball.Update g).ball.velX| ∧
    |g.ball.velY| ≤ |(Ball.Update g).ball.velY| ∧
    (g.ball.integrate.rect.Overlaps g.player1.rect = false →
      g.ball.integrate.rect.Overlaps g.player2.rect = false →
      |(Ball.Update g).ball.velX| = |g.ball.velX| ∧
        |(Ball.Update g).ball.velY| = |g.ball.velY|) := by
  have e : maxVelocity = 5.5 := rfl
  have hr := Ball.resolved_abs_vel g
  have hbx := maxClamp_boost_ge (Ball.resolved g).velX 5.5 (by rw [hr.1]; exact hx)
  have hby := maxClamp_boost_ge (Ball.resolved g).velY 5.5 (by rw [hr.2]; exact hy)
  rw [hr.1] at hbx
  rw [hr.2] at hby
  rw [Ball.Update_eq]
  dsimp only
  refine ⟨?_, ?_, ?_⟩
  · split_ifs
    · simp only [Ball.boost, e]
      exact hbx
    · exact le_of_eq hr.1.symm
  · split_ifs
    · simp only [Ball.boost, e]
      exact hby
    · exact le_of_eq hr.2.symm
  · intro h1 h2
    have hhit : Ball.hitsPaddle g = false := by
      simp [Ball.hitsPaddle, h1, h2]
    simp only [hhit, Bool.false_eq_true, if_false]
    exact hr

/-- C18 at `cornerGame`, a tick with a paddle collision: both components start at 2.5 and
are not smaller afterwards. -/
theorem ball_never_slows_witness :
    |cornerGame.ball.velX| ≤ |(Ball.Update cornerGame).ball.velX| ∧
      |cornerGame.ball.velY| ≤ |(Ball.Update cornerGame).ball.velY| :=
  ⟨(ball_never_slows cornerGame (by norm_num [cornerGame, abs_le])
      (by norm_num [cornerGame, abs_le])).1,
   (ball_never_slows cornerGame (by norm_num [cornerGame, abs_le])
      (by norm_num [cornerGame, abs_le])).2.1⟩

/-- The rectangle of a paddle after `Paddle.Update` is recomputed from its new position. -/
theorem Paddle.Update_rect (p : Paddle) (keys : Key → Bool) :
    (p.Update keys).rect =
      image.Rect (toInt (p.Update keys).x) (toInt p.y) (toInt ((p.Update keys).x + p.width))
        (toInt (p.y + p.height)) := by
  unfold Paddle.Update
  dsimp only
  split_ifs <;> rfl

/-- The left edge of `image.Rect(x0, y0, x1, y1)` is at most `x0`. -/
theorem Rect_minX_le (x0 y0 x1 y1 : ℤ) : (image.Rect x0 y0 x1 y1).Min.X ≤ x0 := by
  show (if x0 > x1 then x1 else x0) ≤ x0
  split_ifs with h
  · omega
  · exact le_refl x0

/-- Two rectangles whose vertical ranges do not intersect do not overlap. -/
theorem overlaps_false_of_rows (r s : image.Rectangle)
    (h : s.Max.Y ≤ r.Min.Y ∨ r.Max.Y ≤ s.Min.Y) : r.Overlaps s = false := by
  rw [← Bool.not_eq_true]
  intro hov
  simp only [image.Rectangle.Overlaps, Bool.and_eq_true, decide_eq_true_eq] at hov
  obtain ⟨⟨_, h1⟩, h2⟩ := hov
  rcases h with h | h <;> omega

/-- One tick of the game keeps the trap: the ball overlaps no paddle, its `velX` is
inverted by the edge test, and it moves between `x = 0` and `x = -2.5`. -/
theorem trapInvariant_step (g : Game) (keys : Key → Bool) (h : trapInvariant g) :
    trapInvariant (g.Update keys) := by
  obtain ⟨h1y, h1h, h2y, h2h, hby, hbvy, hbs, hbx⟩ := h
  have f1 := Paddle.Update_frame g.player1 keys
  have f2 := Paddle.Update_frame g.player2 keys
  have r1 := Paddle.Update_rect g.player1 keys
  have r2 := Paddle.Update_rect g.player2 keys
  have e1 : (g.Update keys).player1 = g.player1.Update keys := by
    unfold Game.Update
    rw [(Ball.Update_paddles _).1]
  have e2 : (g.Update keys).player2 = g.player2.Update keys := by
    unfold Game.Update
    rw [(Ball.Update_paddles _).2]
  have t200 : toInt (200 : Float32) = 200 := by norm_num [toInt, Int.floor_eq_iff]
  have t220 : toInt (220 : Float32) = 220 := by norm_num [toInt, Int.floor_eq_iff]
  have hMinY : g.ball.integrate.rect.Min.Y = 200 := by
    simp only [Ball.integrate, image.Rect, hby, hbvy, hbs]
    norm_num [t200, t220]
  have hMaxY : g.ball.integrate.rect.Max.Y = 220 := by
    simp only [Ball.integrate, image.Rect, hby, hbvy, hbs]
    norm_num [t200, t220]
  have hp1 : (g.player1.Update keys).rect.Min.Y = 440 := by
    rw [r1]
    simp only [image.Rect, h1y, h1h]
    norm_num [toInt, Int.floor_eq_iff]
  have hp2 : (g.player2.Update keys).rect.Max.Y = 48 := by
    rw [r2]
    simp only [image.Rect, h2y, h2h]
    norm_num [toInt, Int.floor_eq_iff]
  have ho1 : g.ball.integrate.rect.Overlaps (g.player1.Update keys).rect = false :=
    overlaps_false_of_rows _ _ (Or.inr (by rw [hMaxY, hp1]; decide))
  have ho2 : g.ball.integrate.rect.Overlaps (g.player2.Update keys).rect = false :=
    overlaps_false_of_rows _ _ (Or.inl (by rw [hMinY, hp2]; decide))
  have hball : (g.Update keys).ball = g.ball.integrate.edgeBounce := by
    unfold Game.Update
    rw [Ball.Update_eq]
    simp [Ball.hitsPaddle, Ball.resolved, ho1, ho2]
  have hedgeY : ¬ (g.ball.integrate.rect.Min.Y ≤ 0 ∨
      g.ball.integrate.rect.Max.Y ≥ screenHeight) := by
    rw [hMinY, hMaxY]
    decide
  have hvy : (g.Update keys).ball.velY = 0 := by
    rw [hball]
    show (if g.ball.integrate.rect.Min.Y ≤ 0 ∨ g.ball.integrate.rect.Max.Y ≥ screenHeight
      then -g.ball.integrate.velY else g.ball.integrate.velY) = 0
    rw [if_neg hedgeY]
    exact hbvy
  have hy : (g.Update keys).ball.y = 200 := by
    rw [hball]
    show g.ball.y + g.ball.velY = 200
    rw [hby, hbvy]
    norm_num
  have hs : (g.Update keys).ball.size = 20 := by
    rw [hball]
    exact hbs
  have hxv : ((g.Update keys).ball.x = 0 ∧ (g.Update keys).ball.velX = -2.5) ∨
      ((g.Update keys).ball.x = -2.5 ∧ (g.Update keys).ball.velX = 2.5) := by
    rw [hball]
    rcases hbx with ⟨hx, hv⟩ | ⟨hx, hv⟩
    · right
      have hedge : g.ball.integrate.rect.Min.X ≤ 0 ∨
          g.ball.integrate.rect.Max.X ≥ screenWidth := by
        left
        have ht : toInt (g.ball.x + g.ball.velX) = -2 := by
          rw [hx, hv]
          norm_num [toInt, Int.ceil_eq_iff]
        have hle := Rect_minX_le (toInt (g.ball.x + g.ball.velX)) (toInt (g.ball.y + g.ball.velY))
          (toInt (g.ball.x + g.ball.velX + g.ball.size))
          (toInt (g.ball.y + g.ball.velY + g.ball.size))
        show (image.Rect (toInt (g.ball.x + g.ball.velX)) (toInt (g.ball.y + g.ball.velY))
          (toInt (g.ball.x + g.ball.velX + g.ball.size))
          (toInt (g.ball.y + g.ball.velY + g.ball.size))).Min.X ≤ 0
        omega
      refine ⟨?_, ?_⟩
      · show g.ball.x + g.ball.velX = -2.5
        rw [hx, hv]
        norm_num
      · show (if g.ball.integrate.rect.Min.X ≤ 0 ∨ g.ball.integrate.rect.Max.X ≥ screenWidth
          then -g.ball.integrate.velX else g.ball.integrate.velX) = 2.5
        rw [if_pos hedge]
        show -g.ball.velX = 2.5
        rw [hv]
        norm_num
    · left
      have hedge : g.ball.integrate.rect.Min.X ≤ 0 ∨
          g.ball.integrate.rect.Max.X ≥ screenWidth := by
        left
        have ht : toInt (g.ball.x + g.ball.velX) = 0 := by
          rw [hx, hv]
          norm_num [toInt]
        have hle := Rect_minX_le (toInt (g.ball.x + g.ball.velX)) (toInt (g.ball.y + g.ball.velY))
          (toInt (g.ball.x + g.ball.velX + g.ball.size))
          (toInt (g.ball.y + g.ball.velY + g.ball.size))
        show (image.Rect (toInt (g.ball.x + g.ball.velX)) (toInt (g.ball.y + g.ball.velY))
          (toInt (g.ball.x + g.ball.velX + g.ball.size))
          (toInt (g.ball.y + g.ball.velY + g.ball.size))).Min.X ≤ 0
        omega
      refine ⟨?_, ?_⟩
      · show g.ball.x + g.ball.velX = 0
        rw [hx, hv]
        norm_num
      · show (if g.ball.integrate.rect.Min.X ≤ 0 ∨ g.ball.integrate.rect.Max.X ≥ screenWidth
          then -g.ball.integrate.velX else g.ball.integrate.velX) = -2.5
        rw [if_pos hedge]
        show -g.ball.velX = -2.5
        rw [hv]
  refine ⟨?_, ?_, ?_, ?_, hy, hvy, hs, hxv⟩
  · rw [e1, f1.1, h1y]
  · rw [e1, f1.2.2.1, h1h]
  · rw [e2, f2.1, h2y]
  · rw [e2, f2.2.2.1, h2h]

/-- In every state of the trap the ball's `x` is not greater than 0, and it stays so after
every sequence of ticks. -/
theorem trapInvariant_run (ticks : List (Key → Bool)) :
    ∀ g : Game, trapInvariant g → (g.run ticks).ball.x ≤ 0 := by
  induction ticks with
  | nil =>
    intro g h
    rcases h.2.2.2.2.2.2.2 with ⟨hx, _⟩ | ⟨hx, _⟩
    · exact le_of_eq hx
    · show g.ball.x ≤ 0
      rw [hx]
      norm_num
  | cons keys rest ih =>
    intro g h
    exact ih (g.Update keys) (trapInvariant_step g keys h)

/-- The two states of the trap follow each other under `Ball.Update`. -/
theorem trapGame_cycle :
    Ball.Update trapGame = trapGameMid ∧ Ball.Update trapGameMid = trapGame := by
  have hc : ⌈(-(5 / 2) : Float32)⌉ = -2 := by
    norm_num [Int.ceil_eq_iff]
  constructor
  · rw [Ball.Update_eq]
    norm_num [Ball.hitsPaddle, Ball.resolved, Ball.integrate, Ball.edgeBounce, trapGame,
      trapGameMid, mainPlayer1, mainPlayer2, zeroRect, image.Rect, image.Rectangle.Overlaps,
      image.Rectangle.Empty, toInt, Int.floor_eq_iff, hc, screenWidth,
      screenHeight]
  · rw [Ball.Update_eq]
    norm_num [Ball.hitsPaddle, Ball.resolved, Ball.integrate, Ball.edgeBounce, trapGame,
      trapGameMid, mainPlayer1, mainPlayer2, zeroRect, image.Rect, image.Rectangle.Overlaps,
      image.Rectangle.Empty, toInt, Int.floor_eq_iff, Int.ceil_eq_iff, screenWidth,
      screenHeight]

/-- Iterating `Ball.Update` from `trapGame` only ever visits the two states of the trap. -/
theorem trapGame_iterate (n : ℕ) :
    Ball.Update^[n] trapGame = trapGame ∨ Ball.Update^[n] trapGame = trapGameMid := by
  induction n with
  | zero => exact Or.inl rfl
  | succ k ih =>
    rw [Function.iterate_succ_apply']
    rcases ih with h | h
    · rw [h]
      exact Or.inr trapGame_cycle.1
    · rw [h]
      exact Or.inl trapGame_cycle.2

/-- C20: from the ball state `x = 0`, `velX = -2.5`, `velY = 0`, `size = 20`, `y = 200` with
the paddles of `main`, the ball overlaps no paddle, the edge test holds and `velX` is
inverted on each of two consecutive `Ball.Update` calls, after which `x = 0` and
`velX = -2.5` again; so `x` is never greater than 0 afterwards, under repeated
`Ball.Update` and under every sequence of game ticks. -/
theorem edge_bounce_trap :
    (Ball.hitsPaddle trapGame = false ∧
      (trapGame.ball.integrate.rect.Min.X ≤ 0 ∨
        trapGame.ball.integrate.rect.Max.X ≥ screenWidth) ∧
      (Ball.Update trapGame).ball.velX = -trapGame.ball.velX) ∧
    (Ball.hitsPaddle (Ball.Update trapGame) = false ∧
      ((Ball.Update trapGame).ball.integrate.rect.Min.X ≤ 0 ∨
        (Ball.Update trapGame).ball.integrate.rect.Max.X ≥ screenWidth) ∧
      (Ball.Update (Ball.Update trapGame)).ball.velX = -(Ball.Update trapGame).ball.velX) ∧
    ((Ball.Update (Ball.Update trapGame)).ball.x = 0 ∧
      (Ball.Update (Ball.Update trapGame)).ball.velX = -2.5 ∧
      trapGame.ball.x = 0 ∧ trapGame.ball.velX = -2.5) ∧
    (∀ n : ℕ, (Ball.Update^[n] trapGame).ball.x ≤ 0) ∧
    (∀ ticks : List (Key → Bool), (trapGame.run ticks).ball.x ≤ 0) := by
  have hc : ⌈(-(5 / 2) : Float32)⌉ = -2 := by
    norm_num [Int.ceil_eq_iff]
  have c1 := trapGame_cycle.1
  have c2 := trapGame_cycle.2
  refine ⟨⟨?_, ?_, ?_⟩, ⟨?_, ?_, ?_⟩, ⟨?_, ?_, rfl, rfl⟩, ?_, ?_⟩
  · norm_num [Ball.hitsPaddle, Ball.integrate, trapGame, mainPlayer1, mainPlayer2, zeroRect,
      image.Rect, image.Rectangle.Overlaps, image.Rectangle.Empty]
  · left
    norm_num [Ball.integrate, trapGame, image.Rect, toInt, hc]
  · rw [c1]
    norm_num [trapGame, trapGameMid]
  · rw [c1]
    norm_num [Ball.hitsPaddle, Ball.integrate, trapGameMid, mainPlayer1, mainPlayer2, zeroRect,
      image.Rect, image.Rectangle.Overlaps, image.Rectangle.Empty]
  · left
    rw [c1]
    norm_num [Ball.integrate, trapGameMid, image.Rect, toInt]
  · rw [c1, c2]
    norm_num [trapGame, trapGameMid]
  · rw [c1, c2]
    rfl
  · rw [c1, c2]
    rfl
  · intro n
    rcases trapGame_iterate n with h | h
    · rw [h]
      exact le_of_eq rfl
    · rw [h]
      norm_num [trapGameMid]
  · intro ticks
    apply trapInvariant_run ticks trapGame
    refine ⟨?_, rfl, rfl, rfl, rfl, rfl, rfl, Or.inl ⟨rfl, rfl⟩⟩
    norm_num [trapGame, mainPlayer1, screenHeight]

/-! ## Rounding to binary32 -/

/-- An integer is its own rounding. -/
theorem roundHalfEven_intCast (n : ℤ) : roundHalfEven (n : ℚ) = n := by
  unfold roundHalfEven
  simp

/-- The rounding of `q` is the floor of `q` or the integer after it, on the side of the fractional part. -/
theorem roundHalfEven_cases (q : ℚ) :
    (roundHalfEven q = ⌊q⌋ ∧ q - ⌊q⌋ ≤ 1 / 2) ∨ (roundHalfEven q = ⌊q⌋ + 1 ∧ 1 / 2 ≤ q - ⌊q⌋) := by
  unfold roundHalfEven
  split_ifs with h1 h2 h3
  · exact Or.inl ⟨rfl, le_of_lt h1⟩
  · exact Or.inr ⟨rfl, le_of_lt h2⟩
  · exact Or.inl ⟨rfl, not_lt.mp h2⟩
  · exact Or.inr ⟨rfl, not_lt.mp h1⟩

/-- Rounding to the nearest integer is monotone. -/
theorem roundHalfEven_mono {a b : ℚ} (h : a ≤ b) : roundHalfEven a ≤ roundHalfEven b := by
  have hfl : ⌊a⌋ ≤ ⌊b⌋ := Int.floor_mono h
  rcases lt_or_eq_of_le hfl with hlt | heq
  · have ha : roundHalfEven a ≤ ⌊a⌋ + 1 := by
      rcases roundHalfEven_cases a with h1 | h1 <;> omega
    have hb : ⌊b⌋ ≤ roundHalfEven b := by
      rcases roundHalfEven_cases b with h1 | h1 <;> omega
    omega
  · unfold roundHalfEven
    rw [← heq]
    have hd : a - ⌊a⌋ ≤ b - ⌊a⌋ := by linarith
    split_ifs <;> first | omega | (exfalso; linarith)

/-- Rounding to the nearest integer moves a value by at most one half. -/
theorem roundHalfEven_error (q : ℚ) : |(roundHalfEven q : ℚ) - q| ≤ 1 / 2 := by
  have h0 := Int.floor_le q
  have h1 := Int.lt_floor_add_one q
  rw [abs_le]
  rcases roundHalfEven_cases q with h | h
  · rw [h.1]
    constructor <;> linarith [h.2]
  · rw [h.1]
    push_cast
    constructor <;> linarith [h.2]

/-- The binary logarithm of a magnitude between two consecutive powers of two. -/
theorem log_abs_eq {q : ℚ} {e : ℤ} (h1 : (2 : ℚ) ^ e ≤ |q|) (h2 : |q| < 2 ^ (e + 1)) :
    Int.log 2 |q| = e := by
  have hpos : (0 : ℚ) < |q| := lt_of_lt_of_le (by positivity) h1
  have ha : e ≤ Int.log 2 |q| := (Int.zpow_le_iff_le_log (by norm_num) hpos).mp (by exact_mod_cast h1)
  have hb : Int.log 2 |q| < e + 1 := (Int.lt_zpow_iff_log_lt (by norm_num) hpos).mp (by exact_mod_cast h2)
  omega

/-- The unit in the last place of a normal magnitude between two consecutive powers of two. -/
theorem ulpExponent_eq {q : ℚ} {e : ℤ} (he : -126 ≤ e) (h1 : (2 : ℚ) ^ e ≤ |q|)
    (h2 : |q| < 2 ^ (e + 1)) : ulpExponent q = e - 23 := by
  unfold ulpExponent
  rw [log_abs_eq h1 h2, max_eq_left he]

/-- The value of `round32` from the binade of its argument and the rounding of the scaled argument. -/
theorem round32_eq_of {q : ℚ} {e n : ℤ} (he : -126 ≤ e) (h1 : (2 : ℚ) ^ e ≤ |q|)
    (h2 : |q| < 2 ^ (e + 1)) (hn : roundHalfEven (q / 2 ^ (e - 23)) = n) :
    round32 q = n * 2 ^ (e - 23) := by
  unfold round32
  rw [ulpExponent_eq he h1 h2, hn]

/-- The value of `roundHalfEven` from the floor of its argument. -/
theorem roundHalfEven_eq_of {q : ℚ} {f : ℤ} (hf : ⌊q⌋ = f) :
    roundHalfEven q =
      if q - f < 1 / 2 then f else if q - f > 1 / 2 then f + 1
      else if f % 2 = 0 then f else f + 1 := by
  unfold roundHalfEven
  rw [hf]

/-- Zero is a binary32 value. -/
theorem round32_zero : round32 0 = 0 := by
  unfold round32
  have h : roundHalfEven ((0 : ℚ) / 2 ^ ulpExponent 0) = 0 := by
    rw [zero_div]
    exact_mod_cast roundHalfEven_intCast 0
  rw [h]
  simp

/-- Rounding to the nearest integer, ties to even, commutes with negation. -/
theorem roundHalfEven_neg (t : ℚ) : roundHalfEven (-t) = -roundHalfEven t := by
  by_cases hint : (⌊t⌋ : ℚ) = t
  · rw [← hint]
    have h1 : (-(⌊t⌋ : ℚ)) = ((-⌊t⌋ : ℤ) : ℚ) := by push_cast; rfl
    rw [h1, roundHalfEven_intCast, roundHalfEven_intCast]
  · have hlt : (⌊t⌋ : ℚ) < t := lt_of_le_of_ne (Int.floor_le t) hint
    have hlt2 := Int.lt_floor_add_one t
    have hfl : ⌊-t⌋ = -⌊t⌋ - 1 := by
      rw [Int.floor_eq_iff]
      push_cast
      constructor <;> linarith
    unfold roundHalfEven
    rw [hfl]
    push_cast
    split_ifs <;> first | omega | (exfalso; linarith)

/-- The unit in the last place depends on the magnitude only. -/
theorem ulpExponent_neg (q : ℚ) : ulpExponent (-q) = ulpExponent q := by
  unfold ulpExponent
  rw [abs_neg]

/-- Rounding to binary32 commutes with negation. -/
theorem round32_neg (q : ℚ) : round32 (-q) = -round32 q := by
  unfold round32
  rw [ulpExponent_neg, neg_div, roundHalfEven_neg]
  push_cast
  ring

/-- The rounding of a non-negative value is non-negative. -/
theorem round32_nonneg {q : ℚ} (h : 0 ≤ q) : 0 ≤ round32 q := by
  unfold round32
  have hp : (0 : ℚ) < 2 ^ ulpExponent q := by positivity
  have h1 : (0 : ℚ) ≤ q / 2 ^ ulpExponent q := div_nonneg h (le_of_lt hp)
  have h2 : roundHalfEven ((0 : ℤ) : ℚ) ≤ roundHalfEven (q / 2 ^ ulpExponent q) :=
    roundHalfEven_mono (by exact_mod_cast h1)
  rw [roundHalfEven_intCast] at h2
  have h3 : (0 : ℚ) ≤ (roundHalfEven (q / 2 ^ ulpExponent q) : ℚ) := by exact_mod_cast h2
  exact mul_nonneg h3 (le_of_lt hp)

/-- The rounding of a positive value does not exceed the top of its binade. -/
theorem round32_le_pow {q : ℚ} (hq : 0 < q) :
    round32 q ≤ 2 ^ (max (Int.log 2 |q|) (-126) + 1) := by
  have habs : |q| = q := abs_of_pos hq
  have hlt : q < 2 ^ (Int.log 2 |q| + 1) := by
    have := Int.lt_zpow_succ_log_self (b := 2) (by norm_num) |q|
    rw [habs] at this ⊢
    exact_mod_cast this
  have hle : (2 : ℚ) ^ (Int.log 2 |q| + 1) ≤ 2 ^ (max (Int.log 2 |q|) (-126) + 1) :=
    zpow_le_zpow_right₀ (by norm_num) (by omega)
  unfold round32 ulpExponent
  set E := max (Int.log 2 |q|) (-126) with hE
  have hp : (0 : ℚ) < 2 ^ (E - 23) := by positivity
  have hsplit : (2 : ℚ) ^ (E + 1) = 2 ^ (24 : ℤ) * 2 ^ (E - 23) := by
    rw [← zpow_add₀ (by norm_num : (2 : ℚ) ≠ 0)]
    congr 1
    ring
  have ht : q / 2 ^ (E - 23) ≤ ((2 ^ 24 : ℤ) : ℚ) := by
    rw [div_le_iff₀ hp]
    have : q ≤ 2 ^ (E + 1) := le_of_lt (lt_of_lt_of_le hlt hle)
    rw [hsplit] at this
    norm_num at this ⊢
    exact this
  have hr := roundHalfEven_mono ht
  rw [roundHalfEven_intCast] at hr
  have hr' : (roundHalfEven (q / 2 ^ (E - 23)) : ℚ) ≤ 2 ^ (24 : ℤ) := by
    have : ((roundHalfEven (q / 2 ^ (E - 23)) : ℤ) : ℚ) ≤ ((2 ^ 24 : ℤ) : ℚ) := by exact_mod_cast hr
    norm_num at this ⊢
    exact this
  rw [hsplit]
  exact mul_le_mul_of_nonneg_right hr' (le_of_lt hp)

/-- The rounding of a positive normal value is not below the bottom of its binade. -/
theorem pow_le_round32 {q : ℚ} (hq : 0 < q) (he : -126 ≤ Int.log 2 |q|) :
    (2 : ℚ) ^ (Int.log 2 |q|) ≤ round32 q := by
  have habs : |q| = q := abs_of_pos hq
  have hge : (2 : ℚ) ^ (Int.log 2 |q|) ≤ q := by
    have := Int.zpow_log_le_self (b := 2) (r := |q|) (by norm_num) (by rw [habs]; exact hq)
    rw [habs] at this ⊢
    exact_mod_cast this
  unfold round32 ulpExponent
  rw [max_eq_left he]
  set E := Int.log 2 |q| with hE
  have hp : (0 : ℚ) < 2 ^ (E - 23) := by positivity
  have hsplit : (2 : ℚ) ^ E = 2 ^ (23 : ℤ) * 2 ^ (E - 23) := by
    rw [← zpow_add₀ (by norm_num : (2 : ℚ) ≠ 0)]
    congr 1
    ring
  have ht : ((2 ^ 23 : ℤ) : ℚ) ≤ q / 2 ^ (E - 23) := by
    rw [le_div_iff₀ hp]
    rw [hsplit] at hge
    norm_num at hge ⊢
    exact hge
  have hr := roundHalfEven_mono ht
  rw [roundHalfEven_intCast] at hr
  have hr' : (2 : ℚ) ^ (23 : ℤ) ≤ (roundHalfEven (q / 2 ^ (E - 23)) : ℚ) := by
    have : ((2 ^ 23 : ℤ) : ℚ) ≤ ((roundHalfEven (q / 2 ^ (E - 23)) : ℤ) : ℚ) := by exact_mod_cast hr
    norm_num at this ⊢
    exact this
  rw [hsplit]
  exact mul_le_mul_of_nonneg_right hr' (le_of_lt hp)

/-- Rounding to binary32 is monotone on positive values. -/
theorem round32_mono_pos {a b : ℚ} (ha : 0 < a) (h : a ≤ b) : round32 a ≤ round32 b := by
  have hb : 0 < b := lt_of_lt_of_le ha h
  have hlog : Int.log 2 |a| ≤ Int.log 2 |b| := by
    rw [abs_of_pos ha, abs_of_pos hb]
    exact Int.log_mono_right ha h
  rcases lt_or_eq_of_le (max_le_max hlog (le_refl (-126 : ℤ))) with hlt | heq
  · have hbe : -126 ≤ Int.log 2 |b| := by
      rcases le_max_iff.mp (le_of_lt hlt) with h1 | h1
      · exact le_trans (le_max_right _ _) h1
      · omega
    have hb' : max (Int.log 2 |b|) (-126) = Int.log 2 |b| := max_eq_left hbe
    have h1 := round32_le_pow ha
    have h2 := pow_le_round32 hb hbe
    have h3 : (2 : ℚ) ^ (max (Int.log 2 |a|) (-126) + 1) ≤ 2 ^ (Int.log 2 |b|) :=
      zpow_le_zpow_right₀ (by norm_num) (by omega)
    exact le_trans h1 (le_trans h3 h2)
  · have hk : ulpExponent a = ulpExponent b := by
      unfold ulpExponent
      rw [heq]
    unfold round32
    rw [hk]
    have hp : (0 : ℚ) < 2 ^ ulpExponent b := by positivity
    have ht : a / 2 ^ ulpExponent b ≤ b / 2 ^ ulpExponent b :=
      div_le_div_of_nonneg_right h (le_of_lt hp)
    have hr := roundHalfEven_mono ht
    have hr' : (roundHalfEven (a / 2 ^ ulpExponent b) : ℚ) ≤
        (roundHalfEven (b / 2 ^ ulpExponent b) : ℚ) := by exact_mod_cast hr
    exact mul_le_mul_of_nonneg_right hr' (le_of_lt hp)

/-- Rounding to binary32 is monotone. -/
theorem round32_mono {a b : ℚ} (h : a ≤ b) : round32 a ≤ round32 b := by
  rcases lt_trichotomy 0 a with ha | ha | ha
  · exact round32_mono_pos ha h
  · rw [← ha, round32_zero]
    exact round32_nonneg (by rw [ha]; exact h)
  · rcases lt_or_le b 0 with hb | hb
    · have h1 := round32_mono_pos (a := -b) (b := -a) (by linarith) (by linarith)
      rw [round32_neg, round32_neg] at h1
      linarith
    · have h1 := round32_nonneg (q := -a) (by linarith)
      rw [round32_neg] at h1
      have h2 := round32_nonneg hb
      linarith

/-- A value that is an integer number of units in the last place is not changed by rounding. -/
theorem round32_of_scaled {q : ℚ} {j : ℤ} (h : q / 2 ^ ulpExponent q = j) : round32 q = q := by
  unfold round32
  rw [h, roundHalfEven_intCast, ← h]
  have hp : (2 : ℚ) ^ ulpExponent q ≠ 0 := by positivity
  field_simp

/-- Every integer of magnitude at most `2^24` is a binary32 value. -/
theorem round32_intCast (n : ℤ) (h : |n| ≤ 2 ^ 24) : round32 (n : ℚ) = n := by
  by_cases hn : n = 0
  · rw [hn]
    exact_mod_cast round32_zero
  have hpos : (0 : ℚ) < |(n : ℚ)| := abs_pos.mpr (by exact_mod_cast hn)
  have hone : (1 : ℚ) ≤ |(n : ℚ)| := by
    have : (1 : ℤ) ≤ |n| := Int.one_le_abs hn
    exact_mod_cast this
  have hub : |(n : ℚ)| ≤ 2 ^ (24 : ℤ) := by
    have : ((|n| : ℤ) : ℚ) ≤ ((2 ^ 24 : ℤ) : ℚ) := by exact_mod_cast h
    push_cast at this
    norm_num at this ⊢
    exact this
  have he0 : 0 ≤ Int.log 2 |(n : ℚ)| :=
    (Int.zpow_le_iff_le_log (by norm_num) hpos).mp (by simpa using hone)
  have he24 : Int.log 2 |(n : ℚ)| < 25 :=
    (Int.lt_zpow_iff_log_lt (by norm_num) hpos).mp
      (lt_of_le_of_lt hub (by norm_num))
  have hle := Int.zpow_log_le_self (b := 2) (r := |(n : ℚ)|) (by norm_num) hpos
  have hk : ulpExponent (n : ℚ) = Int.log 2 |(n : ℚ)| - 23 := by
    unfold ulpExponent
    rw [max_eq_left (by omega)]
  generalize Int.log 2 |(n : ℚ)| = e at he0 he24 hle hk
  rcases lt_or_le e 24 with hlt | hge
  · apply round32_of_scaled (j := n * 2 ^ (23 - e).toNat)
    rw [hk]
    have h2 : (2 : ℚ) ^ (e - 23) = ((2 : ℚ) ^ (23 - e).toNat)⁻¹ := by
      rw [← zpow_natCast, Int.toNat_of_nonneg (by omega), ← zpow_neg]
      congr 1
      ring
    rw [h2]
    push_cast
    field_simp
  · have he : e = 24 := by omega
    subst he
    have habs : |(n : ℚ)| = 2 ^ (24 : ℤ) := le_antisymm hub (by exact_mod_cast hle)
    rcases eq_or_eq_neg_of_abs_eq habs with hv | hv
    · apply round32_of_scaled (j := 2 ^ 23)
      rw [hk, hv]
      norm_num
    · apply round32_of_scaled (j := -2 ^ 23)
      rw [hk, hv]
      norm_num

/-- Below `2^22` in magnitude, rounding to binary32 moves a value by at most one quarter. -/
theorem round32_error {q : ℚ} (h : |q| ≤ 2 ^ 22) : |round32 q - q| ≤ 1 / 4 := by
  have hk : ulpExponent q ≤ -1 := by
    unfold ulpExponent
    by_cases hq : q = 0
    · rw [hq, abs_zero, Int.log_zero_right]
      norm_num
    · have hpos : (0 : ℚ) < |q| := abs_pos.mpr hq
      have hlog : Int.log 2 |q| < 23 :=
        (Int.lt_zpow_iff_log_lt (by norm_num) hpos).mp (lt_of_le_of_lt h (by norm_num))
      have : max (Int.log 2 |q|) (-126) ≤ 22 := max_le (by omega) (by norm_num)
      omega
  have hp : (0 : ℚ) < 2 ^ ulpExponent q := by positivity
  have hsmall : (2 : ℚ) ^ ulpExponent q ≤ 1 / 2 := by
    have := zpow_le_zpow_right₀ (by norm_num : (1 : ℚ) ≤ 2) hk
    norm_num at this ⊢
    exact this
  have herr := roundHalfEven_error (q / 2 ^ ulpExponent q)
  have heq : round32 q - q =
      ((roundHalfEven (q / 2 ^ ulpExponent q) : ℚ) - q / 2 ^ ulpExponent q) *
        2 ^ ulpExponent q := by
    unfold round32
    field_simp
  rw [heq, abs_mul, abs_of_pos hp]
  calc |(roundHalfEven (q / 2 ^ ulpExponent q) : ℚ) - q / 2 ^ ulpExponent q| *
        2 ^ ulpExponent q ≤ 1 / 2 * (1 / 2) :=
        mul_le_mul herr hsmall (le_of_lt hp) (by norm_num)
    _ = 1 / 4 := by norm_num

/-! ## `handleCollision` under float32 rounding -/

/-- The min-side position `paddleMin - size - 1`, computed in float32 at magnitudes up to
`2^20`, is within one half of the exact value. -/
theorem Rounded.minSide_bounds {size pmin : Float32} (hsize : 0 ≤ size) (hs : size ≤ 2 ^ 20)
    (hmin : |pmin| ≤ 2 ^ 20) :
    pmin - size - 3 / 2 ≤ round32 (round32 (pmin - size) - 1) ∧
      round32 (round32 (pmin - size) - 1) ≤ pmin - size - 1 / 2 := by
  have hm := abs_le.mp hmin
  have h1 : |pmin - size| ≤ 2 ^ 22 := by
    rw [abs_le]
    constructor <;> linarith
  have e1 := abs_le.mp (round32_error h1)
  have h2 : |round32 (pmin - size) - 1| ≤ 2 ^ 22 := by
    rw [abs_le]
    constructor <;> linarith [e1.1, e1.2]
  have e2 := abs_le.mp (round32_error h2)
  constructor <;> linarith [e1.1, e1.2, e2.1, e2.2]

/-- The max-side position `paddleMax + 1`, computed in float32 at magnitudes up to `2^20`,
is within one quarter of the exact value. -/
theorem Rounded.maxSide_bounds {pmax : Float32} (hmax : |pmax| ≤ 2 ^ 20) :
    pmax + 3 / 4 ≤ round32 (pmax + 1) ∧ round32 (pmax + 1) ≤ pmax + 5 / 4 := by
  have hm := abs_le.mp hmax
  have h1 : |pmax + 1| ≤ 2 ^ 22 := by
    rw [abs_le]
    constructor <;> linarith
  have e1 := abs_le.mp (round32_error h1)
  constructor <;> linarith [e1.1, e1.2]

/-- After a min-side bounce at magnitudes up to `2^20`, the float32 sum of the new position
and the size is below `paddleMin`. -/
theorem Rounded.minSide_sum_lt {size pmin : Float32} (hsize : 0 ≤ size) (hs : size ≤ 2 ^ 20)
    (hmin : |pmin| ≤ 2 ^ 20) :
    round32 (round32 (round32 (pmin - size) - 1) + size) < pmin := by
  have hm := abs_le.mp hmin
  have hb := Rounded.minSide_bounds hsize hs hmin
  have h1 : |round32 (round32 (pmin - size) - 1) + size| ≤ 2 ^ 22 := by
    rw [abs_le]
    constructor <;> linarith [hb.1, hb.2]
  have e1 := abs_le.mp (round32_error h1)
  linarith [e1.2, hb.2]

/-- C19 (as stated, refuted): with `size = 33554436` against a paddle spanning `[3, 10]`,
`handleCollision(0, size, 1, 3, 10)` returns `(-33554432, -1)` in float32 (the `- 1` is
absorbed by rounding), and a second application flips the velocity again. -/
theorem handleCollision_idempotent_refuted :
    (0 : Float32) ≤ 33554436 ∧ (3 : Float32) ≤ 10 ∧
    Rounded.handleCollision 0 33554436 1 3 10 = (-33554432, -1) ∧
    Rounded.handleCollision (-33554432) 33554436 (-1) 3 10 = (-33554432, 1) ∧
    ¬ (Rounded.handleCollision (Rounded.handleCollision 0 33554436 1 3 10).1 33554436
          (Rounded.handleCollision 0 33554436 1 3 10).2 3 10 =
        Rounded.handleCollision 0 33554436 1 3 10) := by
  have v1 : round32 33554436 = 33554436 := by
    rw [round32_eq_of (e := 25) (n := 8388609) (by norm_num) (by norm_num) (by norm_num)]
    · norm_num
    · have ht : (33554436 : ℚ) / 2 ^ ((25 : ℤ) - 23) = ((8388609 : ℤ) : ℚ) := by norm_num
      rw [ht, roundHalfEven_intCast]
  have v2 : round32 (-33554433) = -33554432 := by
    rw [round32_eq_of (e := 25) (n := -8388608) (by norm_num) (by norm_num [abs_of_neg])
      (by norm_num [abs_of_neg])]
    · norm_num
    · rw [roundHalfEven_eq_of (f := -8388609) (by norm_num [Int.floor_eq_iff])]
      norm_num
  have v3 : round32 4 = 4 := by exact_mod_cast round32_intCast 4 (by norm_num)
  have h1 : Rounded.handleCollision 0 33554436 1 3 10 = (-33554432, -1) := by
    unfold Rounded.handleCollision
    norm_num [v1, v2]
  have h2 : Rounded.handleCollision (-33554432) 33554436 (-1) 3 10 = (-33554432, 1) := by
    unfold Rounded.handleCollision
    norm_num [v2, v3]
  refine ⟨by norm_num, by norm_num, h1, h2, ?_⟩
  rw [h1, h2]
  norm_num

/-- C19 (amended): for `size ≥ 0` and `paddleMin ≤ paddleMax` with `size`, `|paddleMin|` and
`|paddleMax|` at most `2^20`, applying `handleCollision` (with float32 rounding) to its own
result returns that result unchanged. -/
theorem handleCollision_idempotent_bounded (pos size vel paddleMin paddleMax : Float32)
    (hsize : 0 ≤ size) (hs : size ≤ 2 ^ 20) (hmin : |paddleMin| ≤ 2 ^ 20)
    (hmax : |paddleMax| ≤ 2 ^ 20) (hpaddle : paddleMin ≤ paddleMax) :
    Rounded.handleCollision (Rounded.handleCollision pos size vel paddleMin paddleMax).1 size
        (Rounded.handleCollision pos size vel paddleMin paddleMax).2 paddleMin paddleMax =
      Rounded.handleCollision pos size vel paddleMin paddleMax := by
  have hfix : ∀ q w : Float32, ¬ (round32 (q + size) > paddleMin ∧ q < paddleMin) →
      ¬ (q < paddleMax ∧ round32 (q + size) > paddleMax) →
      Rounded.handleCollision q size w paddleMin paddleMax = (q, w) := by
    intro q w h1 h2
    unfold Rounded.handleCollision
    rw [if_neg h1, if_neg h2]
  have hsum := Rounded.minSide_sum_lt hsize hs hmin
  have hmx := Rounded.maxSide_bounds hmax
  by_cases h1 : round32 (pos + size) > paddleMin ∧ pos < paddleMin
  · have e : Rounded.handleCollision pos size vel paddleMin paddleMax =
        (round32 (round32 (paddleMin - size) - 1), -vel) := by
      unfold Rounded.handleCollision
      rw [if_pos h1]
    rw [e]
    apply hfix
    · rintro ⟨ha, _⟩
      dsimp only at ha
      linarith
    · rintro ⟨_, hb⟩
      dsimp only at hb
      linarith
  · by_cases h2 : pos < paddleMax ∧ round32 (pos + size) > paddleMax
    · have e : Rounded.handleCollision pos size vel paddleMin paddleMax =
          (round32 (paddleMax + 1), -vel) := by
        unfold Rounded.handleCollision
        rw [if_neg h1, if_pos h2]
      rw [e]
      apply hfix
      · rintro ⟨_, hb⟩
        dsimp only at hb
        linarith [hmx.1]
      · rintro ⟨ha, _⟩
        dsimp only at ha
        linarith [hmx.1]
    · rw [hfix pos vel h1 h2]
      exact hfix pos vel h1 h2

/-- C19 (amended) at a ball of size 20 entering a paddle spanning `[100, 108]` from the min
side. -/
theorem handleCollision_idempotent_bounded_witness :
    Rounded.handleCollision (Rounded.handleCollision 90 20 2.5 100 108).1 20
        (Rounded.handleCollision 90 20 2.5 100 108).2 100 108 =
      Rounded.handleCollision 90 20 2.5 100 108 :=
  handleCollision_idempotent_bounded 90 20 2.5 100 108 (by norm_num) (by norm_num)
    (by norm_num [abs_le]) (by norm_num [abs_le]) (by norm_num)

/-- C15 (as stated, refuted): in float32 the bounce does not always leave a gap of 1.  With
`size = 33554436` against a paddle spanning `[3, 10]` the min-side branch returns
`-33554432`, so the ball's interval ends at 4 and still reaches into the paddle.  At screen
scale, with `pos = 64.9f`, `size = 0.3f` and a paddle spanning `[65, 73]`, the ball's
interval ends at `1073741773 / 2^24`, just below `64 = 65 - 1`. -/
theorem handleCollision_separates_refuted :
    ((0 : Float32) ≤ 33554436 ∧ (3 : Float32) ≤ 10 ∧
      (round32 (0 + 33554436) > 3 ∧ (0 : Float32) < 3) ∧
      ¬ ((Rounded.handleCollision 0 33554436 1 3 10).1 + 33554436 = 3 - 1 ∨
          (Rounded.handleCollision 0 33554436 1 3 10).1 = 10 + 1) ∧
      ¬ ((Rounded.handleCollision 0 33554436 1 3 10).1 + 33554436 < 3 ∨
          10 < (Rounded.handleCollision 0 33554436 1 3 10).1)) ∧
    ((0 : Float32) ≤ 5033165 / 16777216 ∧ (65 : Float32) ≤ 73 ∧
      (round32 (8506573 / 131072 + 5033165 / 16777216) > 65 ∧
        (8506573 / 131072 : Float32) < 65) ∧
      ¬ ((Rounded.handleCollision (8506573 / 131072) (5033165 / 16777216) 1 65 73).1 +
            5033165 / 16777216 = 65 - 1 ∨
          (Rounded.handleCollision (8506573 / 131072) (5033165 / 16777216) 1 65 73).1 =
            73 + 1)) := by
  have v1 : round32 33554436 = 33554436 := by
    rw [round32_eq_of (e := 25) (n := 8388609) (by norm_num) (by norm_num) (by norm_num)]
    · norm_num
    · have ht : (33554436 : ℚ) / 2 ^ ((25 : ℤ) - 23) = ((8388609 : ℤ) : ℚ) := by norm_num
      rw [ht, roundHalfEven_intCast]
  have v2 : round32 (-33554433) = -33554432 := by
    rw [round32_eq_of (e := 25) (n := -8388608) (by norm_num) (by norm_num [abs_of_neg])
      (by norm_num [abs_of_neg])]
    · norm_num
    · rw [roundHalfEven_eq_of (f := -8388609) (by norm_num [Int.floor_eq_iff])]
      norm_num
  have h1 : Rounded.handleCollision 0 33554436 1 3 10 = (-33554432, -1) := by
    unfold Rounded.handleCollision
    norm_num [v1, v2]
  have w1 : round32 (1093874509 / 16777216) = 8545895 / 131072 := by
    rw [round32_eq_of (e := 6) (n := 8545895) (by norm_num) (by norm_num [abs_of_pos])
      (by norm_num [abs_of_pos])]
    · norm_num
    · rw [roundHalfEven_eq_of (f := 8545894) (by norm_num [Int.floor_eq_iff])]
      norm_num
  have w2 : round32 (1085485875 / 16777216) = 4240179 / 65536 := by
    rw [round32_eq_of (e := 6) (n := 8480358) (by norm_num) (by norm_num [abs_of_pos])
      (by norm_num [abs_of_pos])]
    · norm_num
    · rw [roundHalfEven_eq_of (f := 8480358) (by norm_num [Int.floor_eq_iff])]
      norm_num
  have w3 : round32 (4174643 / 65536) = 4174643 / 65536 := by
    rw [round32_eq_of (e := 5) (n := 16698572) (by norm_num) (by norm_num [abs_of_pos])
      (by norm_num [abs_of_pos])]
    · norm_num
    · have ht : (4174643 / 65536 : ℚ) / 2 ^ ((5 : ℤ) - 23) = ((16698572 : ℤ) : ℚ) := by
        norm_num
      rw [ht, roundHalfEven_intCast]
  have h2 : Rounded.handleCollision (8506573 / 131072) (5033165 / 16777216) 1 65 73 =
      (4174643 / 65536, -1) := by
    unfold Rounded.handleCollision
    norm_num [w1, w2, w3]
  refine ⟨⟨by norm_num, by norm_num, ⟨?_, by norm_num⟩, ?_, ?_⟩,
    ⟨by norm_num, by norm_num, ⟨?_, by norm_num⟩, ?_⟩⟩
  · norm_num [v1]
  · rw [h1]
    norm_num
  · rw [h1]
    norm_num
  · norm_num [w1]
  · rw [h2]
    norm_num

/-- C15 (amended): for `size ≥ 0` and `paddleMin ≤ paddleMax` with `size`, `|paddleMin|` and
`|paddleMax|` at most `2^20`, when `handleCollision` (with float32 rounding) takes a bounce
branch, `[pos', pos' + size]` is disjoint from `[paddleMin, paddleMax]` with a gap within
one half of 1: `pos' + size` lies in `[paddleMin - 3/2, paddleMin - 1/2]` or `pos'` lies in
`[paddleMax + 1/2, paddleMax + 3/2]`; and the gap is exactly 1 (`pos' + size = paddleMin - 1`
or `pos' = paddleMax + 1`) when `size`, `paddleMin` and `paddleMax` are integers. -/
theorem handleCollision_separates_bounded (pos size vel paddleMin paddleMax : Float32)
    (hsize : 0 ≤ size) (hs : size ≤ 2 ^ 20) (hmin : |paddleMin| ≤ 2 ^ 20)
    (hmax : |paddleMax| ≤ 2 ^ 20) (_hpaddle : paddleMin ≤ paddleMax)
    (hbounce : (round32 (pos + size) > paddleMin ∧ pos < paddleMin) ∨
      (pos < paddleMax ∧ round32 (pos + size) > paddleMax)) :
    ((paddleMin - 3 / 2 ≤ (Rounded.handleCollision pos size vel paddleMin paddleMax).1 + size ∧
        (Rounded.handleCollision pos size vel paddleMin paddleMax).1 + size ≤
          paddleMin - 1 / 2) ∨
      (paddleMax + 1 / 2 ≤ (Rounded.handleCollision pos size vel paddleMin paddleMax).1 ∧
        (Rounded.handleCollision pos size vel paddleMin paddleMax).1 ≤ paddleMax + 3 / 2)) ∧
    ((Rounded.handleCollision pos size vel paddleMin paddleMax).1 + size < paddleMin ∨
      paddleMax < (Rounded.handleCollision pos size vel paddleMin paddleMax).1) ∧
    (∀ s m M : ℤ, size = s → paddleMin = m → paddleMax = M →
      ((Rounded.handleCollision pos size vel paddleMin paddleMax).1 + size = paddleMin - 1 ∨
        (Rounded.handleCollision pos size vel paddleMin paddleMax).1 = paddleMax + 1)) := by
  have hmn := Rounded.minSide_bounds hsize hs hmin
  have hmx := Rounded.maxSide_bounds hmax
  by_cases h1 : round32 (pos + size) > paddleMin ∧ pos < paddleMin
  · have e : Rounded.handleCollision pos size vel paddleMin paddleMax =
        (round32 (round32 (paddleMin - size) - 1), -vel) := by
      unfold Rounded.handleCollision
      rw [if_pos h1]
    rw [e]
    dsimp only
    refine ⟨Or.inl ⟨by linarith [hmn.1], by linarith [hmn.2]⟩, Or.inl (by linarith [hmn.2]), ?_⟩
    intro s m M hs' hm' _
    left
    have hsb : (s : ℚ) ≤ 2 ^ 20 := by rw [← hs']; exact hs
    have hs0 : (0 : ℚ) ≤ s := by rw [← hs']; exact hsize
    have hmb := abs_le.mp (by rw [← hm']; exact hmin : |(m : ℚ)| ≤ 2 ^ 20)
    have hsb' : s ≤ 2 ^ 20 := by exact_mod_cast hsb
    have hs0' : 0 ≤ s := by exact_mod_cast hs0
    have hmb1 : -2 ^ 20 ≤ m := by exact_mod_cast hmb.1
    have hmb2 : m ≤ 2 ^ 20 := by exact_mod_cast hmb.2
    have c1 : round32 (paddleMin - size) = ((m - s : ℤ) : ℚ) := by
      rw [hs', hm', ← Int.cast_sub]
      exact round32_intCast (m - s) (by rw [abs_le]; constructor <;> omega)
    have c2 : round32 (((m - s : ℤ) : ℚ) - 1) = ((m - s - 1 : ℤ) : ℚ) := by
      have : ((m - s : ℤ) : ℚ) - 1 = ((m - s - 1 : ℤ) : ℚ) := by push_cast; ring
      rw [this]
      exact round32_intCast (m - s - 1) (by rw [abs_le]; constructor <;> omega)
    rw [c1, c2, hs', hm']
    push_cast
    ring
  · have h2 : pos < paddleMax ∧ round32 (pos + size) > paddleMax := by
      rcases hbounce with h | h
      · exact absurd h h1
      · exact h
    have e : Rounded.handleCollision pos size vel paddleMin paddleMax =
        (round32 (paddleMax + 1), -vel) := by
      unfold Rounded.handleCollision
      rw [if_neg h1, if_pos h2]
    rw [e]
    dsimp only
    refine ⟨Or.inr ⟨by linarith [hmx.1], by linarith [hmx.2]⟩, Or.inr (by linarith [hmx.1]), ?_⟩
    intro s m M _ _ hM'
    right
    have hMb := abs_le.mp (by rw [← hM']; exact hmax : |(M : ℚ)| ≤ 2 ^ 20)
    have hMb1 : -2 ^ 20 ≤ M := by exact_mod_cast hMb.1
    have hMb2 : M ≤ 2 ^ 20 := by exact_mod_cast hMb.2
    have : (M : ℚ) + 1 = ((M + 1 : ℤ) : ℚ) := by push_cast; ring
    rw [hM', this]
    exact round32_intCast (M + 1) (by rw [abs_le]; constructor <;> omega)

/-- C15 (amended) at a ball of size 20 entering a paddle spanning `[100, 108]` from the min
side: the sizes and bounds are integers and the ball ends at `99 = 100 - 1`. -/
theorem handleCollision_separates_bounded_witness :
    (Rounded.handleCollision 90 20 2.5 100 108).1 + 20 = 100 - 1 ∨
      (Rounded.handleCollision 90 20 2.5 100 108).1 = 108 + 1 :=
  (handleCollision_separates_bounded 90 20 2.5 100 108 (by norm_num) (by norm_num)
    (by norm_num [abs_le]) (by norm_num [abs_le]) (by norm_num)
    (Or.inl ⟨by
      rw [show (90 : Float32) + 20 = ((110 : ℤ) : ℚ) by norm_num,
        round32_intCast 110 (by norm_num)]
      norm_num, by norm_num⟩)).2.2 20 100 108 (by norm_num) (by norm_num) (by norm_num)

/-! ## The overlap flags under float32 rounding -/

/-- The value of `round32` at an integer-valued sum of magnitude at most `2^24`. -/
theorem round32_of_eq_int {q : Float32} (n : ℤ) (hq : q = n) (hn : |n| ≤ 2 ^ 24) :
    round32 q = n := by
  rw [hq]
  exact round32_intCast n hn

/-- C16 (as stated, refuted): `wideBall` has `size ≥ 0` and the rectangle computed from its
position, and that rectangle overlaps the rectangle of `widePaddle` (`16777219 < 16777220`),
but `float32(16777219)` is `16777220`, so `resolveCollisions` computes `isXOverlap` false. -/
theorem overlap_forces_both_axes_refuted :
    0 ≤ wideBall.size ∧ wideBall.rect = Rounded.ballRect wideBall ∧
    wideBall.rect.Overlaps widePaddle.rect = true ∧
    Rounded.float32 widePaddle.rect.Min.X = 16777220 ∧
    Rounded.isXOverlap wideBall widePaddle = false := by
  have v1 : round32 16777219 = 16777220 := by
    rw [round32_eq_of (e := 24) (n := 8388610) (by norm_num) (by norm_num) (by norm_num)]
    · norm_num
    · rw [roundHalfEven_eq_of (f := 8388609) (by norm_num [Int.floor_eq_iff])]
      norm_num
  have v2 : round32 16777220 = 16777220 := by
    rw [round32_eq_of (e := 24) (n := 8388610) (by norm_num) (by norm_num) (by norm_num)]
    · norm_num
    · have ht : (16777220 : ℚ) / 2 ^ ((24 : ℤ) - 23) = ((8388610 : ℤ) : ℚ) := by norm_num
      rw [ht, roundHalfEven_intCast]
  have v3 : round32 115 = 115 := round32_of_eq_int 115 (by norm_num) (by norm_num)
  have t1 : toInt (16777200 : Float32) = 16777200 := by exact_mod_cast toInt_intCast 16777200
  have t2 : toInt (16777220 : Float32) = 16777220 := by exact_mod_cast toInt_intCast 16777220
  have t3 : toInt (95 : Float32) = 95 := by exact_mod_cast toInt_intCast 95
  have t4 : toInt (115 : Float32) = 115 := by exact_mod_cast toInt_intCast 115
  refine ⟨by norm_num [wideBall], ?_, ?_, ?_, ?_⟩
  · norm_num [Rounded.ballRect, wideBall, v2, v3, t1, t2, t3, t4]
  · norm_num [wideBall, widePaddle, image.Rect, image.Rectangle.Overlaps,
      image.Rectangle.Empty]
  · norm_num [Rounded.float32, widePaddle, image.Rect, v1]
  · norm_num [Rounded.isXOverlap, Rounded.float32, wideBall, widePaddle, image.Rect, v1, v2]

/-- C16 (amended): for a ball with `size ≥ 0` whose `x` and `y` are float32 values and whose
`rect` is the one computed from its position, and a paddle, when every coordinate of both
rectangles has magnitude at most `2^24` (so that `float32(n)` is exact and `int(f)` does not
overflow): if `ball.rect` overlaps the paddle's rectangle then `resolveCollisions` (with
float32 rounding) computes `isXOverlap` and `isYOverlap` both true, so the axis is chosen by
the depth comparison. -/
theorem overlap_forces_both_axes_bounded (b : Ball) (p : Paddle) (hsize : 0 ≤ b.size)
    (fx : round32 b.x = b.x) (fy : round32 b.y = b.y)
    (hrect : b.rect = Rounded.ballRect b)
    (hb : Rounded.rectWithin b.rect (2 ^ 24)) (hp : Rounded.rectWithin p.rect (2 ^ 24))
    (hov : b.rect.Overlaps p.rect = true) :
    Rounded.isXOverlap b p = true ∧ Rounded.isYOverlap b p = true ∧
    Rounded.resolveCollisions b p =
      (if abs (Rounded.xDepth b p) < abs (Rounded.yDepth b p) then
        ({ b with
            x := (Rounded.handleCollision b.x b.size b.velX (Rounded.float32 p.rect.Min.X)
              (Rounded.float32 p.rect.Max.X)).1,
            velX := (Rounded.handleCollision b.x b.size b.velX (Rounded.float32 p.rect.Min.X)
              (Rounded.float32 p.rect.Max.X)).2 }, p)
      else
        ({ b with
            y := (Rounded.handleCollision b.y b.size b.velY (Rounded.float32 p.rect.Min.Y)
              (Rounded.float32 p.rect.Max.Y)).1,
            velY := (Rounded.handleCollision b.y b.size b.velY (Rounded.float32 p.rect.Min.Y)
              (Rounded.float32 p.rect.Max.Y)).2 }, p)) := by
  have hsx : b.x ≤ round32 (b.x + b.size) := by
    have := round32_mono (a := b.x) (b := b.x + b.size) (by linarith)
    rw [fx] at this
    exact this
  have hsy : b.y ≤ round32 (b.y + b.size) := by
    have := round32_mono (a := b.y) (b := b.y + b.size) (by linarith)
    rw [fy] at this
    exact this
  have hmx : toInt b.x ≤ toInt (round32 (b.x + b.size)) := toInt_mono hsx
  have hmy : toInt b.y ≤ toInt (round32 (b.y + b.size)) := toInt_mono hsy
  have hMinX : b.rect.Min.X = toInt b.x := by
    rw [hrect]
    simp [Rounded.ballRect, image.Rect, not_lt.mpr hmx]
  have hMaxX : b.rect.Max.X = toInt (round32 (b.x + b.size)) := by
    rw [hrect]
    simp [Rounded.ballRect, image.Rect, not_lt.mpr hmx]
  have hMinY : b.rect.Min.Y = toInt b.y := by
    rw [hrect]
    simp [Rounded.ballRect, image.Rect, not_lt.mpr hmy]
  have hMaxY : b.rect.Max.Y = toInt (round32 (b.y + b.size)) := by
    rw [hrect]
    simp [Rounded.ballRect, image.Rect, not_lt.mpr hmy]
  have cpx : Rounded.float32 p.rect.Min.X = p.rect.Min.X := round32_intCast _ hp.1
  have cpy : Rounded.float32 p.rect.Min.Y = p.rect.Min.Y := round32_intCast _ hp.2.1
  have cbx : Rounded.float32 (toInt (round32 (b.x + b.size))) =
      toInt (round32 (b.x + b.size)) := by
    rw [← hMaxX]
    exact round32_intCast _ hb.2.2.1
  have cby : Rounded.float32 (toInt (round32 (b.y + b.size))) =
      toInt (round32 (b.y + b.size)) := by
    rw [← hMaxY]
    exact round32_intCast _ hb.2.2.2
  simp only [image.Rectangle.Overlaps, image.Rectangle.Empty, Bool.and_eq_true,
    Bool.not_eq_true', Bool.or_eq_false_iff, decide_eq_true_eq, decide_eq_false_iff_not,
    hMinX, hMaxX, hMinY, hMaxY] at hov
  obtain ⟨⟨⟨⟨⟨⟨hbx, hby⟩, -⟩, -⟩, hpx⟩, -⟩, hpy⟩ := hov
  have hX : Rounded.isXOverlap b p = true := by
    simp only [Rounded.isXOverlap, Bool.and_eq_true, decide_eq_true_eq, cpx, hMaxX, cbx]
    exact ⟨lt_of_lt_toInt hpx, lt_of_toInt_lt (lt_of_not_le hbx)⟩
  have hY : Rounded.isYOverlap b p = true := by
    simp only [Rounded.isYOverlap, Bool.and_eq_true, decide_eq_true_eq, cpy, hMaxY, cby]
    exact ⟨lt_of_lt_toInt hpy, lt_of_toInt_lt (lt_of_not_le hby)⟩
  refine ⟨hX, hY, ?_⟩
  simp [Rounded.resolveCollisions, hX, hY]

/-- C16 (amended) at `tieBall` and `cornerPaddle`: the ball's rectangle `(90,90)-(110,110)`
is the one computed from its position and overlaps the paddle's, and both flags hold. -/
theorem overlap_forces_both_axes_bounded_witness :
    Rounded.isXOverlap tieBall cornerPaddle = true ∧
      Rounded.isYOverlap tieBall cornerPaddle = true :=
  have v110 : round32 (110 : Float32) = 110 :=
    round32_of_eq_int 110 (by norm_num) (by norm_num)
  have v90 : round32 (90 : Float32) = 90 := round32_of_eq_int 90 (by norm_num) (by norm_num)
  have t90 : toInt (90 : Float32) = 90 := by exact_mod_cast toInt_intCast 90
  have t110 : toInt (110 : Float32) = 110 := by exact_mod_cast toInt_intCast 110
  have h := overlap_forces_both_axes_bounded tieBall cornerPaddle (by norm_num [tieBall])
    v90 v90 (by norm_num [Rounded.ballRect, tieBall, v110, t90, t110])
    (by norm_num [Rounded.rectWithin, tieBall, image.Rect, abs_le])
    (by norm_num [Rounded.rectWithin, cornerPaddle, image.Rect, abs_le])
    (by norm_num [tieBall, cornerPaddle, image.Rect, image.Rectangle.Overlaps,
      image.Rectangle.Empty])
  ⟨h.1, h.2.1⟩

/-! ## `resolveCollisions` on integer coordinates -/

end Gopong
